import Mathlib

/-!
Shallow embedding of the `rumble-engine` Solana program
(`src/packages/solana/programs/rumble-engine/src/lib.rs`).

Machine integers are modelled as `Nat` with explicit bounds checks where the
source uses `checked_add` / `checked_mul` / `checked_sub` (u64, u8, u128);
`saturating_sub` on unsigned integers is Lean's truncated `Nat` subtraction,
and `saturating_add(x).min(cap)` is written out with `Nat.min`.  Fixed-size
on-chain arrays (`[T; 16]`) become `List Nat` values of length 16, read with
`List.getD` and written with `List.set`.  `Pubkey` values are modelled as
natural numbers standing for the 32-byte key read as a big-endian number, so
the source's lexicographic `to_bytes().cmp` coincides with `compare` on `Nat`.
SHA-256 (the external `sha2` crate, not part of this repository) is a
parameter `sha : List Nat → List Nat` of every definition that hashes.
Fallible instructions return `Except RumbleError`; a Solana instruction that
returns an error aborts the whole transaction, so an `.error` result means
no stored record changes.
-/

namespace RumbleEngine

abbrev Pubkey := Nat

/-- `u64::MAX + 1`: a checked u64 operation succeeds iff the result is below this. -/
def U64 : Nat := 2 ^ 64

/-- `u128::MAX + 1`. -/
def U128 : Nat := 2 ^ 128

/-- `u8::MAX + 1`. -/
def U8 : Nat := 2 ^ 8

def MAX_FIGHTERS : Nat := 16
def ADMIN_FEE_BPS : Nat := 100
def SPONSORSHIP_FEE_BPS : Nat := 500
def TREASURY_CUT_BPS : Nat := 1000
def COMMIT_WINDOW_SLOTS : Nat := 30
def REVEAL_WINDOW_SLOTS : Nat := 30
def MAX_ONCHAIN_COMBAT_TURNS : Nat := 120
def COMBAT_TIMEOUT_SLOTS : Nat := 5000

def MOVE_HIGH_STRIKE : Nat := 0
def MOVE_MID_STRIKE : Nat := 1
def MOVE_LOW_STRIKE : Nat := 2
def MOVE_GUARD_HIGH : Nat := 3
def MOVE_GUARD_MID : Nat := 4
def MOVE_GUARD_LOW : Nat := 5
def MOVE_DODGE : Nat := 6
def MOVE_CATCH : Nat := 7
def MOVE_SPECIAL : Nat := 8

def STRIKE_DAMAGE_HIGH : Nat := 26
def STRIKE_DAMAGE_MID : Nat := 20
def STRIKE_DAMAGE_LOW : Nat := 15
def CATCH_DAMAGE : Nat := 30
def COUNTER_DAMAGE : Nat := 12
def SPECIAL_DAMAGE : Nat := 35
def METER_PER_TURN : Nat := 20
def SPECIAL_METER_COST : Nat := 100
def START_HP : Nat := 100

inductive RumbleState where
  | Betting
  | Combat
  | Payout
  | Complete
deriving DecidableEq, Repr

inductive RumbleError where
  | Unauthorized
  | BettingClosed
  | BettingNotEnded
  | InvalidStateTransition
  | InvalidFighterIndex
  | InvalidFighterCount
  | InvalidPlacement
  | ZeroBetAmount
  | AlreadyClaimed
  | PayoutNotReady
  | NotInPayoutRange
  | MathOverflow
  | InsufficientVaultFunds
  | InvalidTreasury
  | InvalidRumble
  | NothingToClaim
  | DeadlineInPast
  | InvalidFighterAccount
  | ClaimWindowActive
  | InvalidBettorAccount
  | InvalidTurn
  | InvalidMoveCommitment
  | InvalidMoveCode
  | AlreadyRevealedMove
  | TurnAlreadyOpen
  | TurnNotOpen
  | TurnAlreadyResolved
  | TurnNotResolved
  | CommitWindowClosed
  | RevealWindowClosed
  | RevealWindowActive
  | CombatAlreadyFinished
  | CombatStillActive
  | MaxTurnsReached
  | DeprecatedInstruction
  | DuplicateFighter
  | InvalidState
  | FighterEliminated
  | DamageMismatch
deriving DecidableEq, Repr

instance {α : Type} [DecidableEq α] : DecidableEq (Except RumbleError α) := fun x y =>
  match x, y with
  | .ok a, .ok b =>
    if h : a = b then .isTrue (by rw [h]) else .isFalse (by intro hc; cases hc; exact h rfl)
  | .ok _, .error _ => .isFalse (by intro hc; cases hc)
  | .error _, .ok _ => .isFalse (by intro hc; cases hc)
  | .error e, .error f =>
    if h : e = f then .isTrue (by rw [h]) else .isFalse (by intro hc; cases hc; exact h rfl)

/-- The `Rumble` account (`pub struct Rumble`). -/
structure Rumble where
  id : Nat
  state : RumbleState
  fighters : List Pubkey
  fighter_count : Nat
  betting_pools : List Nat
  total_deployed : Nat
  admin_fee_collected : Nat
  sponsorship_paid : Nat
  placements : List Nat
  winner_index : Nat
  betting_deadline : Int
  combat_started_at : Int
  completed_at : Int
  bump : Nat
deriving DecidableEq, Repr

/-- The `BettorAccount` record, as held in storage and as parsed by
`parse_bettor_account_data` (the `ParsedBettorAccount` fields). -/
structure BettorAccount where
  authority : Pubkey
  rumble_id : Nat
  fighter_index : Nat
  sol_deployed : Nat
  claimable_lamports : Nat
  total_claimed_lamports : Nat
  last_claim_ts : Int
  claimed : Bool
  bump : Nat
  fighter_deployments : List Nat
deriving DecidableEq, Repr

/-- The `MoveCommitment` account. The stored 32-byte hash is a `List Nat`. -/
structure MoveCommitment where
  rumble_id : Nat
  fighter : Pubkey
  turn : Nat
  move_hash : List Nat
  revealed_move : Nat
  revealed : Bool
  committed_slot : Nat
  revealed_slot : Nat
  bump : Nat
deriving DecidableEq, Repr

/-- The `RumbleCombatState` account. -/
structure RumbleCombatState where
  rumble_id : Nat
  fighter_count : Nat
  current_turn : Nat
  turn_open_slot : Nat
  commit_close_slot : Nat
  reveal_close_slot : Nat
  turn_resolved : Bool
  remaining_fighters : Nat
  winner_index : Nat
  hp : List Nat
  meter : List Nat
  elimination_rank : List Nat
  total_damage_dealt : List Nat
  total_damage_taken : List Nat
  bump : Nat
deriving DecidableEq, Repr

/-- One entry of the `duel_results` vector accepted by `post_turn_result`. -/
structure DuelResult where
  fighter_a_idx : Nat
  fighter_b_idx : Nat
  move_a : Nat
  move_b : Nat
  damage_to_a : Nat
  damage_to_b : Nat
deriving DecidableEq, Repr

/-- ASCII bytes of a byte-string literal such as `b"rumble:v1"`. -/
def ascii (s : String) : List Nat := s.data.map Char.toNat

/-- Little-endian byte encoding `u64::to_le_bytes`. -/
def le8 (n : Nat) : List Nat := (List.range 8).map fun i => n / 256 ^ i % 256

/-- Little-endian byte encoding `u32::to_le_bytes`. -/
def le4 (n : Nat) : List Nat := (List.range 4).map fun i => n / 256 ^ i % 256

/-- The 32 bytes of a `Pubkey` (`as_ref`), big-endian so that byte-array
lexicographic comparison agrees with numeric comparison. -/
def pubkeyBytes (p : Pubkey) : List Nat := (List.range 32).map fun i => p / 256 ^ (31 - i) % 256

/-- `u64::from_le_bytes` of a byte list (inverse of `le8` on 8 bytes). -/
def leNat : List Nat → Nat
  | [] => 0
  | b :: rest => b % 256 + 256 * leNat rest

/-- `fn hash_u64(parts) -> u64`: first 8 bytes of the SHA-256 digest of the
concatenated parts, read little-endian.  `sha` is the external SHA-256. -/
def hash_u64 (sha : List Nat → List Nat) (parts : List (List Nat)) : Nat :=
  leNat ((sha parts.flatten).take 8)

/-- `fn compute_move_commitment_hash`: SHA-256 over the domain tag, rumble id,
turn, fighter key, move code and salt. -/
def compute_move_commitment_hash (sha : List Nat → List Nat) (rumble_id turn : Nat)
    (fighter : Pubkey) (move_code : Nat) (salt : List Nat) : List Nat :=
  sha (ascii "rumble:v1" ++ le8 rumble_id ++ le4 turn ++ pubkeyBytes fighter ++
    [move_code] ++ salt)

/-- `fn is_valid_move_code`. -/
def is_valid_move_code (move_code : Nat) : Prop := move_code ≤ 8

instance (m : Nat) : Decidable (is_valid_move_code m) := by
  unfold is_valid_move_code; infer_instance

/-- `fn is_strike`. -/
def is_strike (move_code : Nat) : Prop :=
  move_code = MOVE_HIGH_STRIKE ∨ move_code = MOVE_MID_STRIKE ∨ move_code = MOVE_LOW_STRIKE

instance (m : Nat) : Decidable (is_strike m) := by
  unfold is_strike; infer_instance

/-- `fn guard_for_strike`. -/
def guard_for_strike (move_code : Nat) : Option Nat :=
  if move_code = MOVE_HIGH_STRIKE then some MOVE_GUARD_HIGH
  else if move_code = MOVE_MID_STRIKE then some MOVE_GUARD_MID
  else if move_code = MOVE_LOW_STRIKE then some MOVE_GUARD_LOW
  else none

/-- `fn strike_damage`. -/
def strike_damage (move_code : Nat) : Nat :=
  if move_code = MOVE_HIGH_STRIKE then STRIKE_DAMAGE_HIGH
  else if move_code = MOVE_MID_STRIKE then STRIKE_DAMAGE_MID
  else if move_code = MOVE_LOW_STRIKE then STRIKE_DAMAGE_LOW
  else 0

/-- `fn fallback_move_code`: deterministic pseudo-random move for a fighter
who failed to reveal, seeded from (rumble id, turn, fighter). -/
def fallback_move_code (sha : List Nat → List Nat) (rumble_id turn : Nat)
    (fighter : Pubkey) (meter : Nat) : Nat :=
  let roll := hash_u64 sha [ascii "fallback-move", le8 rumble_id, le4 turn,
    pubkeyBytes fighter] % 100
  if SPECIAL_METER_COST ≤ meter ∧ roll < 15 then MOVE_SPECIAL
  else if roll < 67 then
    let strike_idx := hash_u64 sha [ascii "fallback-strike", le8 rumble_id, le4 turn,
      pubkeyBytes fighter] % 3
    if strike_idx = 0 then MOVE_HIGH_STRIKE
    else if strike_idx = 1 then MOVE_MID_STRIKE
    else MOVE_LOW_STRIKE
  else if roll < 87 then
    let guard_idx := hash_u64 sha [ascii "fallback-guard", le8 rumble_id, le4 turn,
      pubkeyBytes fighter] % 3
    if guard_idx = 0 then MOVE_GUARD_HIGH
    else if guard_idx = 1 then MOVE_GUARD_MID
    else MOVE_GUARD_LOW
  else if roll < 95 then MOVE_DODGE
  else MOVE_CATCH

/-- `fn resolve_duel(move_a, move_b, meter_a, meter_b) -> (damage_to_a,
damage_to_b, meter_used_a, meter_used_b)`.  The two sequential `damage_to_*`
assignment blocks of the source are modelled by threading the pair through
both blocks, each assignment overwriting the previous value exactly as the
source's mutable variables do. -/
def resolve_duel (move_a move_b meter_a meter_b : Nat) : Nat × Nat × Nat × Nat :=
  let a_special := move_a = MOVE_SPECIAL ∧ SPECIAL_METER_COST ≤ meter_a
  let b_special := move_b = MOVE_SPECIAL ∧ SPECIAL_METER_COST ≤ meter_b
  let meter_used_a := if a_special then SPECIAL_METER_COST else 0
  let meter_used_b := if b_special then SPECIAL_METER_COST else 0
  let effective_a := if move_a = MOVE_SPECIAL ∧ ¬a_special then 255 else move_a
  let effective_b := if move_b = MOVE_SPECIAL ∧ ¬b_special then 255 else move_b
  -- A attacks B
  let d1 : Nat × Nat :=
    if effective_a = MOVE_SPECIAL then
      if effective_b ≠ MOVE_DODGE then (0, SPECIAL_DAMAGE) else (0, 0)
    else if effective_a = MOVE_CATCH then
      if effective_b = MOVE_DODGE then (0, CATCH_DAMAGE) else (0, 0)
    else if is_strike effective_a then
      if effective_b = MOVE_DODGE then (0, 0)
      else if guard_for_strike effective_a = some effective_b then (COUNTER_DAMAGE, 0)
      else (0, strike_damage effective_a)
    else (0, 0)
  -- B attacks A
  let d2 : Nat × Nat :=
    if effective_b = MOVE_SPECIAL then
      if effective_a ≠ MOVE_DODGE then (SPECIAL_DAMAGE, d1.2) else d1
    else if effective_b = MOVE_CATCH then
      if effective_a = MOVE_DODGE then (CATCH_DAMAGE, d1.2) else d1
    else if is_strike effective_b then
      if effective_a = MOVE_DODGE then d1
      else if guard_for_strike effective_b = some effective_a then (d1.1, COUNTER_DAMAGE)
      else (strike_damage effective_b, d1.2)
    else d1
  (d2.1, d2.2, meter_used_a, meter_used_b)

/-- `fn fighter_in_rumble`: position of a fighter key among the first
`fighter_count` entries. -/
def fighter_in_rumble (r : Rumble) (fighter : Pubkey) : Option Nat :=
  (r.fighters.take r.fighter_count).findIdx? (fun f => f = fighter)

/-- The per-fighter pool accumulation loop of `claim_payout` (lines 1629-1644):
splits the betting pools into (losers_pool, first_pool) according to placement,
with checked u64 additions. -/
def poolLoop (r : Rumble) : List Nat → Nat × Nat → Except RumbleError (Nat × Nat)
  | [], acc => .ok acc
  | i :: rest, (losers_pool, first_pool) =>
    if r.placements.getD i 0 = 1 then
      if first_pool + r.betting_pools.getD i 0 < U64 then
        poolLoop r rest (losers_pool, first_pool + r.betting_pools.getD i 0)
      else .error .MathOverflow
    else
      if losers_pool + r.betting_pools.getD i 0 < U64 then
        poolLoop r rest (losers_pool + r.betting_pools.getD i 0, first_pool)
      else .error .MathOverflow

def poolSplit (r : Rumble) : Except RumbleError (Nat × Nat) :=
  poolLoop r (List.range r.fighter_count) (0, 0)

/-- The winning stake used by `claim_payout`: the per-fighter deployment on the
winner slot, falling back to the legacy single-fighter field (lines 1620-1625). -/
def resolvedStake (b : BettorAccount) (winner_idx : Nat) : Nat :=
  let winning_deployed := b.fighter_deployments.getD winner_idx 0
  if winning_deployed = 0 ∧ b.fighter_index = winner_idx then b.sol_deployed
  else winning_deployed

/-- The widened share computation of `claim_payout` (lines 1664-1672):
`(place_allocation as u128).checked_mul(winning_deployed).checked_div(first_pool) as u64`.
The final `as u64` cast truncates modulo `2^64`. -/
def claimWinnings (place_allocation first_pool winning_deployed : Nat) :
    Except RumbleError Nat :=
  if 0 < first_pool then
    if place_allocation * winning_deployed < U128 then
      .ok (place_allocation * winning_deployed / first_pool % U64)
    else .error .MathOverflow
  else .ok 0

/-- The pure payout formula: original winning stake plus the floor-divided
proportional share of the distributable losers' pool. -/
def payoutFor (distributable first_pool stake : Nat) : Nat :=
  stake + distributable * stake / first_pool

/-- The lazy-accrual block of `claim_payout` (lines 1612-1680): when the stored
claimable amount is zero, require the winner placement and a positive winning
stake, then compute and store the payout once.  `r.winner_index` has already
been bounds-checked by the caller. -/
def lazyAccrual (r : Rumble) (b : BettorAccount) : Except RumbleError BettorAccount :=
  if b.claimable_lamports = 0 then
    if r.placements.getD r.winner_index 0 = 1 then
      if 0 < resolvedStake b r.winner_index then
        match poolSplit r with
        | .error e => .error e
        | .ok (losers_pool, first_pool) =>
          if losers_pool * TREASURY_CUT_BPS < U64 then
            if losers_pool * TREASURY_CUT_BPS / 10000 ≤ losers_pool then
              match claimWinnings (losers_pool - losers_pool * TREASURY_CUT_BPS / 10000)
                  first_pool (resolvedStake b r.winner_index) with
              | .error e => .error e
              | .ok winnings =>
                if resolvedStake b r.winner_index + winnings < U64 then
                  .ok { b with
                        claimable_lamports := resolvedStake b r.winner_index + winnings }
                else .error .MathOverflow
            else .error .MathOverflow
          else .error .MathOverflow
      else .error .NotInPayoutRange
    else .error .NotInPayoutRange
  else .ok b

/-- `pub fn claim_payout`, up to and including the state write that precedes
the vault transfer (lines 1581-1697): the instruction's precondition checks,
the lazy accrual, and the state update (zero the claimable amount, accumulate
the paid total, set the timestamp, mark claimed).  Returns the persisted
bettor record and the amount to transfer. -/
def claim_payout_state (r : Rumble) (b : BettorAccount) (claimer : Pubkey)
    (now : Int) : Except RumbleError (BettorAccount × Nat) :=
  if r.state = RumbleState.Payout ∨ r.state = RumbleState.Complete then
    if b.claimed = false then
      if b.authority = claimer then
        if b.rumble_id = r.id then
          if r.winner_index < r.fighter_count then
            match lazyAccrual r b with
            | .error e => .error e
            | .ok b1 =>
              if 0 < b1.claimable_lamports then
                if b1.total_claimed_lamports + b1.claimable_lamports < U64 then
                  .ok ({ b1 with
                         claimable_lamports := 0,
                         total_claimed_lamports :=
                           b1.total_claimed_lamports + b1.claimable_lamports,
                         last_claim_ts := now,
                         claimed := true }, b1.claimable_lamports)
                else .error .MathOverflow
              else .error .NothingToClaim
          else .error .InvalidFighterIndex
        else .error .InvalidRumble
      else .error .Unauthorized
    else .error .AlreadyClaimed
  else .error .PayoutNotReady

/-- `pub fn claim_payout`, complete: the committed state update followed by the
vault-balance check guarding the SOL transfer (lines 1699-1722).  The returned
record is exactly the one already written before the transfer is attempted. -/
def claim_payout (r : Rumble) (b : BettorAccount) (claimer : Pubkey) (now : Int)
    (vault_lamports : Nat) : Except RumbleError (BettorAccount × Nat) :=
  match claim_payout_state r b claimer now with
  | .error e => .error e
  | .ok (b1, claimable) =>
    if claimable ≤ vault_lamports then .ok (b1, claimable)
    else .error .InsufficientVaultFunds

/-- Padding of the admin-supplied placements vector into the fixed `[u8; 16]`
array (`admin_set_result`, lines 1553-1556). -/
def padPlacements (placements : List Nat) : List Nat :=
  (List.range MAX_FIGHTERS).map fun i => placements.getD i 0

/-- `pub fn admin_set_result` (lines 1529-1571). -/
def admin_set_result (r : Rumble) (placements : List Nat) (winner_index : Nat)
    (now : Int) : Except RumbleError Rumble :=
  if r.state = RumbleState.Betting ∨ r.state = RumbleState.Combat then
    if placements.length = r.fighter_count then
      if winner_index < r.fighter_count then
        if placements.getD winner_index 0 = 1 then
          .ok { r with
                placements := padPlacements placements,
                winner_index := winner_index,
                state := RumbleState.Payout,
                completed_at := now }
        else .error .InvalidPlacement
      else .error .InvalidFighterIndex
    else .error .InvalidPlacement
  else .error .InvalidStateTransition

/-- `pub fn reveal_move` (lines 870-926).  `slot` is the current clock slot;
the revealed-move account given by the caller is `mc`. -/
def reveal_move (sha : List Nat → List Nat) (r : Rumble) (c : RumbleCombatState)
    (mc : MoveCommitment) (fighter : Pubkey) (rumble_id turn move_code : Nat)
    (salt : List Nat) (slot : Nat) : Except RumbleError MoveCommitment :=
  if r.state = RumbleState.Combat then
    if 0 < turn then
      if (fighter_in_rumble r fighter).isSome then
        if turn = c.current_turn then
          if c.turn_resolved = false then
            if c.commit_close_slot < slot ∧ slot ≤ c.reveal_close_slot then
              if is_valid_move_code move_code then
                if mc.revealed = false then
                  if compute_move_commitment_hash sha rumble_id turn fighter move_code salt
                      = mc.move_hash then
                    .ok { mc with
                          revealed := true,
                          revealed_move := move_code,
                          revealed_slot := slot }
                  else .error .InvalidMoveCommitment
                else .error .AlreadyRevealedMove
              else .error .InvalidMoveCode
            else .error .RevealWindowClosed
          else .error .TurnAlreadyResolved
        else .error .InvalidTurn
      else .error .Unauthorized
    else .error .InvalidTurn
  else .error .InvalidStateTransition

/-- Comparator-based sort modelling Rust's `slice::sort_by`.  Every comparator
used by the source has a total tie-break (fighter key or slot index), so the
order produced by any correct sort is the same; only the multiset of elements
matters for the theorems below. -/
def insertLe {α : Type} (le : α → α → Bool) (a : α) : List α → List α
  | [] => [a]
  | b :: rest => if le a b then a :: b :: rest else b :: insertLe le a rest

def sortBy {α : Type} (le : α → α → Bool) : List α → List α
  | [] => []
  | a :: rest => insertLe le a (sortBy le rest)

/-- Boolean `a ≤ b` from a Rust `Ordering`-valued comparator. -/
def cmpLe (o : Ordering) : Bool := decide (o ≠ Ordering.gt)

/-- The living fighters `(0..fighter_count).filter(hp > 0 && elimination_rank == 0)`. -/
def aliveIndices (c : RumbleCombatState) : List Nat :=
  (List.range c.fighter_count).filter fun i =>
    decide (0 < c.hp.getD i 0 ∧ c.elimination_rank.getD i 0 = 0)

/-- The meter grant applied to each paired fighter who survived the turn:
`meter[idx] = meter[idx].saturating_add(METER_PER_TURN).min(SPECIAL_METER_COST)`,
guarded by `hp[idx] > 0`. -/
def grantMeter (c : RumbleCombatState) (idxs : List Nat) : RumbleCombatState :=
  idxs.foldl
    (fun st idx =>
      if 0 < st.hp.getD idx 0 then
        { st with meter := (st.meter.set idx
            (Nat.min (Nat.min (st.meter.getD idx 0 + METER_PER_TURN) 255) SPECIAL_METER_COST)) }
      else st)
    c

/-- The unguarded meter grant for the bye fighter. -/
def grantByeMeter (c : RumbleCombatState) (idx : Nat) : RumbleCombatState :=
  { c with meter := (c.meter.set idx
      (Nat.min (Nat.min (c.meter.getD idx 0 + METER_PER_TURN) 255) SPECIAL_METER_COST)) }

/-- The bye-meter grant of `resolve_turn` (lines 1104-1110): when the sorted
alive list has odd length its last (unpaired) entry sat out and still receives
the turn's meter. -/
def byeGrant (c : RumbleCombatState) (sorted : List Nat) : RumbleCombatState :=
  if sorted.length % 2 = 1 then grantByeMeter c (sorted.getD (sorted.length - 1) 0)
  else c

/-- The elimination loop shared verbatim by `resolve_turn` (lines 1123-1138) and
`post_turn_result` (lines 1319-1334): assign the next elimination rank to each
newly dead fighter, with checked u8 arithmetic, and decrement the survivor
count. -/
def applyEliminations (c : RumbleCombatState) : List Nat → Except RumbleError RumbleCombatState
  | [] => .ok c
  | idx :: rest =>
    if 0 < c.elimination_rank.getD idx 0 then applyEliminations c rest
    else
      if c.remaining_fighters ≤ c.fighter_count then
        if c.fighter_count - c.remaining_fighters + 1 < U8 then
          if 1 ≤ c.remaining_fighters then
            applyEliminations
              { c with
                elimination_rank := c.elimination_rank.set idx
                  (c.fighter_count - c.remaining_fighters + 1),
                remaining_fighters := c.remaining_fighters - 1 }
              rest
          else .error .MathOverflow
        else .error .MathOverflow
      else .error .MathOverflow

/-- After the elimination loop: if exactly one fighter remains, record the first
still-alive slot as the winner (lines 1140-1148 / 1337-1345). -/
def recordWinner (c : RumbleCombatState) : RumbleCombatState :=
  if c.remaining_fighters = 1 then
    match (aliveIndices c).head? with
    | some idx => { c with winner_index := idx }
    | none => c
  else c

/-- The common tail of both turn resolvers (lines 1140-1152 / 1337-1349):
record the winner when one fighter remains, then mark the turn resolved. -/
def finishTurn (c4 : RumbleCombatState) : RumbleCombatState :=
  { recordWinner c4 with turn_resolved := true }

/-- Comparator key for the deterministic pairing order of `resolve_turn`
(lines 1008-1024). -/
def pairOrderKey (sha : List Nat → List Nat) (rumble_id turn : Nat) (f : Pubkey) : Nat :=
  hash_u64 sha [ascii "pair-order", le8 rumble_id, le4 turn, pubkeyBytes f]

def pairOrderLe (sha : List Nat → List Nat) (rumble_id turn : Nat)
    (fighters : List Pubkey) (a b : Nat) : Bool :=
  cmpLe ((compare (pairOrderKey sha rumble_id turn (fighters.getD a 0))
            (pairOrderKey sha rumble_id turn (fighters.getD b 0))).then
          (compare (fighters.getD a 0) (fighters.getD b 0)))

/-- Comparator of the elimination ordering (damage dealt descending, slot
ascending; lines 1117-1121 and 1312-1316). -/
def elimOrderLe (c : RumbleCombatState) (a b : Nat) : Bool :=
  cmpLe ((compare (c.total_damage_dealt.getD b 0) (c.total_damage_dealt.getD a 0)).then
          (compare a b))

/-- The move used for a fighter in `resolve_turn` (lines 1040-1055): the
revealed move when present and valid, else the deterministic fallback seeded
from (rumble id, turn, fighter).  `revealedMove` abstracts the lookup of the
fighter's move-commitment account among the caller-supplied remaining
accounts (`read_revealed_move_from_remaining_accounts`). -/
def moveFor (sha : List Nat → List Nat) (revealedMove : Pubkey → Option Nat)
    (r : Rumble) (turn : Nat) (c : RumbleCombatState) (idx : Nat) : Nat :=
  match revealedMove (r.fighters.getD idx 0) with
  | some m =>
    if is_valid_move_code m then m
    else fallback_move_code sha r.id turn (r.fighters.getD idx 0) (c.meter.getD idx 0)
  | none => fallback_move_code sha r.id turn (r.fighters.getD idx 0) (c.meter.getD idx 0)

/-- The per-duel state update shared by `resolve_turn` (lines 1060-1077) and
`post_turn_result` (lines 1240-1257): subtract meter use, apply damage to hp
(saturating), and accumulate the dealt/taken damage counters.  The two slots
of a duel are distinct, so reading the pre-duel values matches the source's
sequential in-place updates. -/
def applyDuelDamage (c : RumbleCombatState) (idx_a idx_b damage_to_a damage_to_b
    meter_used_a meter_used_b : Nat) : RumbleCombatState :=
  { c with
    meter := ((c.meter.set idx_a (c.meter.getD idx_a 0 - meter_used_a)).set
      idx_b (c.meter.getD idx_b 0 - meter_used_b)),
    hp := ((c.hp.set idx_a (c.hp.getD idx_a 0 - damage_to_a)).set
      idx_b (c.hp.getD idx_b 0 - damage_to_b)),
    total_damage_dealt :=
      ((c.total_damage_dealt.set idx_a
          (c.total_damage_dealt.getD idx_a 0 + damage_to_b)).set
        idx_b (c.total_damage_dealt.getD idx_b 0 + damage_to_a)),
    total_damage_taken :=
      ((c.total_damage_taken.set idx_a
          (c.total_damage_taken.getD idx_a 0 + damage_to_a)).set
        idx_b (c.total_damage_taken.getD idx_b 0 + damage_to_b)) }

/-- Queue the duel's fighters for elimination when their hp reached zero and
they are not yet ranked (lines 1093-1098 / 1273-1278). -/
def duelElims (c1 : RumbleCombatState) (elim : List Nat) (idx_a idx_b : Nat) : List Nat :=
  elim ++
    (if c1.hp.getD idx_a 0 = 0 ∧ c1.elimination_rank.getD idx_a 0 = 0 then [idx_a] else []) ++
    (if c1.hp.getD idx_b 0 = 0 ∧ c1.elimination_rank.getD idx_b 0 = 0 then [idx_b] else [])

/-- One duel of `resolve_turn`'s chunk loop (lines 1029-1099): run
`resolve_duel` on the two moves and apply the state update, with the four
`checked_add` accumulator updates combined into one bounds test — any of them
failing produces the same `MathOverflow` abort. -/
def duelStep (sha : List Nat → List Nat) (revealedMove : Pubkey → Option Nat)
    (r : Rumble) (turn : Nat) (c : RumbleCombatState) (idx_a idx_b : Nat) :
    Except RumbleError RumbleCombatState :=
  if c.total_damage_dealt.getD idx_a 0 +
       (resolve_duel (moveFor sha revealedMove r turn c idx_a)
         (moveFor sha revealedMove r turn c idx_b)
         (c.meter.getD idx_a 0) (c.meter.getD idx_b 0)).2.1 < U64 ∧
     c.total_damage_dealt.getD idx_b 0 +
       (resolve_duel (moveFor sha revealedMove r turn c idx_a)
         (moveFor sha revealedMove r turn c idx_b)
         (c.meter.getD idx_a 0) (c.meter.getD idx_b 0)).1 < U64 ∧
     c.total_damage_taken.getD idx_a 0 +
       (resolve_duel (moveFor sha revealedMove r turn c idx_a)
         (moveFor sha revealedMove r turn c idx_b)
         (c.meter.getD idx_a 0) (c.meter.getD idx_b 0)).1 < U64 ∧
     c.total_damage_taken.getD idx_b 0 +
       (resolve_duel (moveFor sha revealedMove r turn c idx_a)
         (moveFor sha revealedMove r turn c idx_b)
         (c.meter.getD idx_a 0) (c.meter.getD idx_b 0)).2.1 < U64 then
    .ok (applyDuelDamage c idx_a idx_b
      (resolve_duel (moveFor sha revealedMove r turn c idx_a)
        (moveFor sha revealedMove r turn c idx_b)
        (c.meter.getD idx_a 0) (c.meter.getD idx_b 0)).1
      (resolve_duel (moveFor sha revealedMove r turn c idx_a)
        (moveFor sha revealedMove r turn c idx_b)
        (c.meter.getD idx_a 0) (c.meter.getD idx_b 0)).2.1
      (resolve_duel (moveFor sha revealedMove r turn c idx_a)
        (moveFor sha revealedMove r turn c idx_b)
        (c.meter.getD idx_a 0) (c.meter.getD idx_b 0)).2.2.1
      (resolve_duel (moveFor sha revealedMove r turn c idx_a)
        (moveFor sha revealedMove r turn c idx_b)
        (c.meter.getD idx_a 0) (c.meter.getD idx_b 0)).2.2.2)
  else .error .MathOverflow

/-- The chunk loop of `resolve_turn` (lines 1029-1099), pairing adjacent
entries of the sorted alive list; a trailing odd fighter is skipped (bye). -/
def runDuels (sha : List Nat → List Nat) (revealedMove : Pubkey → Option Nat)
    (r : Rumble) (turn : Nat) :
    RumbleCombatState → List Nat → List Nat → List Nat →
    Except RumbleError (RumbleCombatState × List Nat × List Nat)
  | c, idx_a :: idx_b :: rest, paired, elim =>
    match duelStep sha revealedMove r turn c idx_a idx_b with
    | .error e => .error e
    | .ok c1 =>
      runDuels sha revealedMove r turn c1 rest (paired ++ [idx_a, idx_b])
        (duelElims c1 elim idx_a idx_b)
  | c, _, paired, elim => .ok (c, paired, elim)

/-- `pub fn resolve_turn` (lines 970-1159). -/
def resolve_turn (sha : List Nat → List Nat) (revealedMove : Pubkey → Option Nat)
    (r : Rumble) (c : RumbleCombatState) (slot : Nat) :
    Except RumbleError RumbleCombatState :=
  if r.state = RumbleState.Combat then
    if 0 < c.current_turn then
      if c.turn_resolved = false then
        if c.reveal_close_slot ≤ slot then
          if (aliveIndices c).length ≤ 1 then
            .ok { (match (aliveIndices c).head? with
                   | some idx => { c with winner_index := idx }
                   | none => c) with
                  turn_resolved := true }
          else
            match runDuels sha revealedMove r c.current_turn c
                (sortBy (pairOrderLe sha r.id c.current_turn r.fighters) (aliveIndices c))
                [] [] with
            | .error e => .error e
            | .ok (c1, paired, elim) =>
              match applyEliminations
                  (byeGrant (grantMeter c1 paired)
                    (sortBy (pairOrderLe sha r.id c.current_turn r.fighters) (aliveIndices c)))
                  (sortBy
                    (elimOrderLe (byeGrant (grantMeter c1 paired)
                      (sortBy (pairOrderLe sha r.id c.current_turn r.fighters)
                        (aliveIndices c))))
                    elim) with
              | .error e => .error e
              | .ok c4 => .ok (finishTurn c4)
        else .error .RevealWindowActive
      else .error .TurnAlreadyResolved
    else .error .TurnNotOpen
  else .error .InvalidStateTransition

/-- One operator-submitted duel of `post_turn_result` (lines 1207-1279):
bounds, distinctness (`seen`), liveness, move validity, independent damage
recomputation via `resolve_duel`, then the same state update as
`resolve_turn`.  As in `duelStep`, the four checked accumulator additions are
combined into one bounds test. -/
def postedStep (c : RumbleCombatState) (seen : List Bool) (dr : DuelResult) :
    Except RumbleError (RumbleCombatState × List Bool) :=
  if dr.fighter_a_idx < c.fighter_count ∧ dr.fighter_b_idx < c.fighter_count then
    if dr.fighter_a_idx ≠ dr.fighter_b_idx then
      if seen.getD dr.fighter_a_idx true = false ∧
         seen.getD dr.fighter_b_idx true = false then
        if 0 < c.hp.getD dr.fighter_a_idx 0 ∧
           c.elimination_rank.getD dr.fighter_a_idx 0 = 0 then
          if 0 < c.hp.getD dr.fighter_b_idx 0 ∧
             c.elimination_rank.getD dr.fighter_b_idx 0 = 0 then
            if is_valid_move_code dr.move_a then
              if is_valid_move_code dr.move_b then
                if dr.damage_to_a =
                     (resolve_duel dr.move_a dr.move_b
                       (c.meter.getD dr.fighter_a_idx 0)
                       (c.meter.getD dr.fighter_b_idx 0)).1 ∧
                   dr.damage_to_b =
                     (resolve_duel dr.move_a dr.move_b
                       (c.meter.getD dr.fighter_a_idx 0)
                       (c.meter.getD dr.fighter_b_idx 0)).2.1 then
                  if c.total_damage_dealt.getD dr.fighter_a_idx 0 + dr.damage_to_b < U64 ∧
                     c.total_damage_dealt.getD dr.fighter_b_idx 0 + dr.damage_to_a < U64 ∧
                     c.total_damage_taken.getD dr.fighter_a_idx 0 + dr.damage_to_a < U64 ∧
                     c.total_damage_taken.getD dr.fighter_b_idx 0 + dr.damage_to_b < U64 then
                    .ok (applyDuelDamage c dr.fighter_a_idx dr.fighter_b_idx
                        dr.damage_to_a dr.damage_to_b
                        (resolve_duel dr.move_a dr.move_b
                          (c.meter.getD dr.fighter_a_idx 0)
                          (c.meter.getD dr.fighter_b_idx 0)).2.2.1
                        (resolve_duel dr.move_a dr.move_b
                          (c.meter.getD dr.fighter_a_idx 0)
                          (c.meter.getD dr.fighter_b_idx 0)).2.2.2,
                      (seen.set dr.fighter_a_idx true).set dr.fighter_b_idx true)
                  else .error .MathOverflow
                else .error .DamageMismatch
              else .error .InvalidState
            else .error .InvalidState
          else .error .FighterEliminated
        else .error .FighterEliminated
      else .error .DuplicateFighter
    else .error .DuplicateFighter
  else .error .InvalidFighterCount

/-- The validation-and-application loop of `post_turn_result` over the
operator-submitted duels (lines 1207-1279). -/
def runPosted (r : Rumble) :
    RumbleCombatState → List Bool → List DuelResult → List Nat → List Nat →
    Except RumbleError (RumbleCombatState × List Bool × List Nat × List Nat)
  | c, seen, [], paired, elim => .ok (c, seen, paired, elim)
  | c, seen, dr :: rest, paired, elim =>
    match postedStep c seen dr with
    | .error e => .error e
    | .ok (c1, seen1) =>
      runPosted r c1 seen1 rest (paired ++ [dr.fighter_a_idx, dr.fighter_b_idx])
        (duelElims c1 elim dr.fighter_a_idx dr.fighter_b_idx)

/-- The bye validation of `post_turn_result` (lines 1283-1305): a bye index is
required exactly when the living-fighter count is odd, must be in range, alive
and unranked, and must not appear among the submitted pairs. -/
def byeCheck (c2 : RumbleCombatState) (seen : List Bool) (expected_bye : Nat) :
    Option Nat → Except RumbleError RumbleCombatState
  | none => if expected_bye = 1 then .error .InvalidFighterCount else .ok c2
  | some bye =>
    if expected_bye = 1 then
      if bye < c2.fighter_count then
        if 0 < c2.hp.getD bye 0 ∧ c2.elimination_rank.getD bye 0 = 0 then
          if seen.getD bye true = false then .ok (grantByeMeter c2 bye)
          else .error .DuplicateFighter
        else .error .FighterEliminated
      else .error .InvalidFighterCount
    else .error .InvalidFighterCount

/-- `pub fn post_turn_result` (lines 1166-1356): the hybrid operator path. -/
def post_turn_result (r : Rumble) (c : RumbleCombatState)
    (duel_results : List DuelResult) (bye_fighter_idx : Option Nat) (slot : Nat) :
    Except RumbleError RumbleCombatState :=
  if r.state = RumbleState.Combat then
    if 0 < c.current_turn then
      if c.turn_resolved = false then
        if c.reveal_close_slot ≤ slot then
          if duel_results.length = (aliveIndices c).length / 2 then
            match runPosted r c (List.replicate c.fighter_count false) duel_results [] [] with
            | .error e => .error e
            | .ok (c1, seen, paired, elim) =>
              match byeCheck (grantMeter c1 paired) seen
                  ((aliveIndices c).length % 2) bye_fighter_idx with
              | .error e => .error e
              | .ok c3 =>
                match applyEliminations c3 (sortBy (elimOrderLe c3) elim) with
                | .error e => .error e
                | .ok c4 => .ok (finishTurn c4)
          else .error .InvalidFighterCount
        else .error .RevealWindowActive
      else .error .TurnAlreadyResolved
    else .error .TurnNotOpen
  else .error .InvalidStateTransition

/-- Sequential placement assignment: set `placements[i] := next, next+1, ...`
along a list of slots (the survivor and eliminated loops of `finalize_rumble`,
lines 1474-1493). -/
def assignSeq : List Nat → Nat → List Nat → List Nat × Nat
  | p, next, [] => (p, next)
  | p, next, i :: rest => assignSeq (p.set i next) (next + 1) rest

/-- The safety-net loop of `finalize_rumble` (lines 1496-1501): give every
still-unplaced slot the next placement. -/
def fillZeros : List Nat → Nat → List Nat → List Nat × Nat
  | p, next, [] => (p, next)
  | p, next, i :: rest =>
    if p.getD i 0 = 0 then fillZeros (p.set i next) (next + 1) rest
    else fillZeros p next rest

/-- Comparator used by `finalize_rumble` for both the fallback winner choice
and the survivor ordering: hp descending, damage dealt descending, fighter key
ascending (lines 1452-1457 and 1468-1473). -/
def survivorOrderLe (r : Rumble) (c : RumbleCombatState) (a b : Nat) : Bool :=
  cmpLe ((compare (c.hp.getD b 0) (c.hp.getD a 0)).then
          ((compare (c.total_damage_dealt.getD b 0) (c.total_damage_dealt.getD a 0)).then
            (compare (r.fighters.getD a 0) (r.fighters.getD b 0))))

/-- Comparator of the eliminated-fighter ordering in `finalize_rumble`:
elimination rank descending (line 1489). -/
def elimRankOrderLe (c : RumbleCombatState) (a b : Nat) : Bool :=
  cmpLe (compare (c.elimination_rank.getD b 0) (c.elimination_rank.getD a 0))

/-- The surviving non-winner fighters of `finalize_rumble`, in their assigned
order (lines 1465-1473). -/
def survivorsOf (r : Rumble) (c : RumbleCombatState) (winner_idx : Nat) : List Nat :=
  sortBy (survivorOrderLe r c)
    ((List.range r.fighter_count).filter fun i =>
      decide (i ≠ winner_idx ∧ 0 < c.hp.getD i 0 ∧ c.elimination_rank.getD i 0 = 0))

/-- `finalize_rumble` after the winner and survivor placements (lines
1462-1478): placement 1 at the winner slot of the fresh `[0u8; 16]` array,
then 2, 3, ... along the survivors; the second component is the running
`next_place`. -/
def placeStage1 (r : Rumble) (c : RumbleCombatState) (winner_idx : Nat) : List Nat × Nat :=
  assignSeq ((List.replicate MAX_FIGHTERS 0).set winner_idx 1) 2 (survivorsOf r c winner_idx)

/-- The eliminated fighters still unplaced after stage 1, ordered by
elimination rank descending (lines 1484-1489). -/
def eliminatedOf (r : Rumble) (c : RumbleCombatState) (winner_idx : Nat) : List Nat :=
  sortBy (elimRankOrderLe c)
    ((List.range r.fighter_count).filter fun i =>
      decide ((placeStage1 r c winner_idx).1.getD i 0 = 0 ∧
        0 < c.elimination_rank.getD i 0))

/-- Stage 1 followed by the eliminated-fighter placements (lines 1490-1493). -/
def placeStage2 (r : Rumble) (c : RumbleCombatState) (winner_idx : Nat) : List Nat × Nat :=
  assignSeq (placeStage1 r c winner_idx).1 (placeStage1 r c winner_idx).2
    (eliminatedOf r c winner_idx)

/-- The placement-assignment block of `finalize_rumble` (lines 1462-1501),
given the already-selected winner slot: stages 1 and 2 followed by the
safety-net loop over all slots. -/
def finalizePlacements (r : Rumble) (c : RumbleCombatState) (winner_idx : Nat) : List Nat :=
  (fillZeros (placeStage2 r c winner_idx).1 (placeStage2 r c winner_idx).2
    (List.range r.fighter_count)).1

/-- The slots the safety-net loop of `finalize_rumble` actually assigns: those
still unplaced after stage 2. -/
def leftoverOf (r : Rumble) (c : RumbleCombatState) (winner_idx : Nat) : List Nat :=
  (List.range r.fighter_count).filter fun i =>
    decide ((placeStage2 r c winner_idx).1.getD i 0 = 0)

/-- The complete order in which `finalize_rumble` hands out placements 1, 2,
3, ...: the winner, then the survivors, then the eliminated, then the
safety-net leftovers. -/
def placementOrder (r : Rumble) (c : RumbleCombatState) (winner_idx : Nat) : List Nat :=
  winner_idx :: (survivorsOf r c winner_idx ++ eliminatedOf r c winner_idx ++
    leftoverOf r c winner_idx)

/-- The winner-selection block of `finalize_rumble` (lines 1439-1460): take
the recorded winner if the sentinel 255 has been replaced, otherwise the best
candidate by hp, damage dealt, and key order (falling back to every slot when
no one is still alive). -/
def winnerSelection (r : Rumble) (c : RumbleCombatState) :
    Except RumbleError (Nat × RumbleCombatState) :=
  if c.winner_index ≠ 255 then .ok (c.winner_index, c)
  else
    match sortBy (survivorOrderLe r c)
        (if (aliveIndices { c with fighter_count := r.fighter_count }).isEmpty
         then List.range r.fighter_count
         else aliveIndices { c with fighter_count := r.fighter_count }) with
    | [] => .error .CombatStillActive
    | w :: _ => .ok (w, { c with winner_index := w })

/-- `pub fn finalize_rumble` (lines 1410-1515). -/
def finalize_rumble (r : Rumble) (c : RumbleCombatState) (slot : Nat) (now : Int) :
    Except RumbleError (Rumble × RumbleCombatState) :=
  if r.state = RumbleState.Combat then
    if 0 < c.current_turn then
      if c.turn_open_slot + COMBAT_TIMEOUT_SLOTS < U64 then
        if ¬ c.turn_open_slot + COMBAT_TIMEOUT_SLOTS < slot → c.turn_resolved = true then
          if 1 < c.remaining_fighters →
              (MAX_ONCHAIN_COMBAT_TURNS ≤ c.current_turn ∨
               c.turn_open_slot + COMBAT_TIMEOUT_SLOTS < slot) then
            match winnerSelection r c with
            | .error e => .error e
            | .ok (winner_idx, c1) =>
              .ok ({ r with
                     placements := finalizePlacements r c1 winner_idx,
                     winner_index := winner_idx,
                     state := RumbleState.Payout,
                     completed_at := now }, c1)
          else .error .CombatStillActive
        else .error .TurnNotResolved
      else .error .MathOverflow
    else .error .TurnNotOpen
  else .error .InvalidStateTransition

/-- The elimination-rank counting invariant of the combat state:
`remaining_fighters + count(elimination_rank > 0) == fighter_count`. -/
def elimInvariant (c : RumbleCombatState) : Prop :=
  c.remaining_fighters +
    ((Finset.range c.fighter_count).filter
      (fun i => c.elimination_rank.getD i 0 ≠ 0)).card = c.fighter_count

instance (c : RumbleCombatState) : Decidable (elimInvariant c) := by
  unfold elimInvariant; infer_instance

/-- Well-formedness of the fixed-size combat arrays: `fighter_count` is at most
`MAX_FIGHTERS` and every per-fighter array has the on-chain length 16. -/
def combatWF (c : RumbleCombatState) : Prop :=
  c.fighter_count ≤ MAX_FIGHTERS ∧ c.hp.length = MAX_FIGHTERS ∧
  c.meter.length = MAX_FIGHTERS ∧ c.elimination_rank.length = MAX_FIGHTERS ∧
  c.total_damage_dealt.length = MAX_FIGHTERS ∧ c.total_damage_taken.length = MAX_FIGHTERS

instance (c : RumbleCombatState) : Decidable (combatWF c) := by
  unfold combatWF; infer_instance

/-- `True` exactly when the call failed. -/
def isErr {α : Type} : Except RumbleError α → Bool
  | .error _ => true
  | .ok _ => false

/-- The fighter slots named by the duel pairs of a `post_turn_result` submission. -/
def pairsOf : List DuelResult → List Nat
  | [] => []
  | dr :: rest => dr.fighter_a_idx :: dr.fighter_b_idx :: pairsOf rest

/-- The fighter slot named by the submitted bye, as a (0- or 1-element) list. -/
def byeList : Option Nat → List Nat
  | none => []
  | some x => [x]

-- Concrete fixtures used by the witnesses below.

/-- A finalized 4-fighter rumble in `Payout` with pools 100/50/30/20 and slot 0
the winner (the spec's payout scenario). -/
def wRumble : Rumble := {
  id := 7, state := RumbleState.Payout,
  fighters := [101, 102, 103, 104] ++ List.replicate 12 0,
  fighter_count := 4,
  betting_pools := [100, 50, 30, 20] ++ List.replicate 12 0,
  total_deployed := 200, admin_fee_collected := 0, sponsorship_paid := 0,
  placements := [1, 2, 3, 4] ++ List.replicate 12 0,
  winner_index := 0, betting_deadline := 100, combat_started_at := 0,
  completed_at := 0, bump := 0 }

/-- The sole backer of the winning slot with net stake 100. -/
def wBettor : BettorAccount := {
  authority := 55, rumble_id := 7, fighter_index := 0, sol_deployed := 100,
  claimable_lamports := 0, total_claimed_lamports := 0, last_claim_ts := 0,
  claimed := false, bump := 0,
  fighter_deployments := [100] ++ List.replicate 15 0 }

/-- `wBettor` after its first successful claim of 190 lamports. -/
def wBettorPaid : BettorAccount := { wBettor with
  claimable_lamports := 0,
  total_claimed_lamports := 190,
  last_claim_ts := 123,
  claimed := true }

/-- A `Payout` rumble whose placements array is still all-zero (no slot holds
placement 1): used to show that a stored claimable amount is paid with no
winner-side check. -/
def wRumbleStored : Rumble := { wRumble with
  placements := List.replicate 16 0 }

/-- A bettor record with a stored (already-computed) claimable amount. -/
def wBettorStored : BettorAccount := { wBettor with
  claimable_lamports := 500 }

/-- A 2-fighter rumble still in `Betting`, for the admin-override theorems. -/
def wRumbleAdmin : Rumble := { wRumble with
  state := RumbleState.Betting,
  fighter_count := 2,
  fighters := [101, 102] ++ List.replicate 14 0,
  betting_pools := [5, 5] ++ List.replicate 14 0,
  placements := List.replicate 16 0 }

/-- A 2-fighter `Payout` rumble whose single losing pool is `2^60` lamports:
each pool fits in a u64, yet the u64 treasury-cut multiplication
`losers_pool * TREASURY_CUT_BPS` overflows. -/
def wRumbleOverflow : Rumble := { wRumble with
  fighter_count := 2,
  fighters := [101, 102] ++ List.replicate 14 0,
  betting_pools := [1, 2 ^ 60] ++ List.replicate 14 0,
  placements := [1, 2] ++ List.replicate 14 0 }

/-- The backer of the winning slot of `wRumbleOverflow`. -/
def wBettorOverflow : BettorAccount := { wBettor with
  sol_deployed := 1,
  fighter_deployments := [1] ++ List.replicate 15 0 }

/-- A 2-fighter `Payout` rumble with winner pool 100 and losers' pool 100
(the spec's two-backer conservation scenario, stakes 60 and 40). -/
def wRumbleCons : Rumble := { wRumble with
  fighter_count := 2,
  fighters := [101, 102] ++ List.replicate 14 0,
  betting_pools := [100, 100] ++ List.replicate 14 0,
  placements := [1, 2] ++ List.replicate 14 0 }

/-- A stand-in SHA-256 oracle for concrete witnesses (the theorems hold for
every hash function, so any concrete one will do). -/
def sha0 : List Nat → List Nat := fun _ => List.replicate 32 0

/-- No revealed-move account supplied. -/
def rev0 : Pubkey → Option Nat := fun _ => none

/-- `wRumble` during combat. -/
def wRumbleCombat : Rumble := { wRumble with state := RumbleState.Combat }

/-- A combat state in turn 1 with the reveal window [11, 20] open. -/
def wCombat : RumbleCombatState := {
  rumble_id := 7, fighter_count := 4, current_turn := 1, turn_open_slot := 0,
  commit_close_slot := 10, reveal_close_slot := 20, turn_resolved := false,
  remaining_fighters := 4, winner_index := 255,
  hp := [100, 100, 100, 100] ++ List.replicate 12 0,
  meter := List.replicate 16 0,
  elimination_rank := List.replicate 16 0,
  total_damage_dealt := List.replicate 16 0,
  total_damage_taken := List.replicate 16 0, bump := 0 }

/-- An unrevealed commitment whose stored hash does not match what `sha0`
recomputes (the digest of `sha0` is all zeros; the stored hash is all ones). -/
def wCommitMismatch : MoveCommitment := {
  rumble_id := 7, fighter := 101, turn := 1,
  move_hash := List.replicate 32 1,
  revealed_move := 255, revealed := false,
  committed_slot := 5, revealed_slot := 0, bump := 0 }

/-- A commitment that has already been revealed. -/
def wCommitRevealed : MoveCommitment := { wCommitMismatch with
  move_hash := List.replicate 32 0,
  revealed := true,
  revealed_move := 4,
  revealed_slot := 12 }

/-- A 4-fighter rumble still in `Combat`, ready to finalize. -/
def wRumbleFinal : Rumble := { wRumble with state := RumbleState.Combat }

/-- A finished combat: slot 2 alive with 50 hp, slots 0, 1, 3 eliminated with
ranks 2, 1, 3. -/
def wCombatFinal : RumbleCombatState := {
  rumble_id := 7, fighter_count := 4, current_turn := 3, turn_open_slot := 0,
  commit_close_slot := 10, reveal_close_slot := 20, turn_resolved := true,
  remaining_fighters := 1, winner_index := 2,
  hp := [0, 0, 50, 0] ++ List.replicate 12 0,
  meter := List.replicate 16 0,
  elimination_rank := [2, 1, 0, 3] ++ List.replicate 12 0,
  total_damage_dealt := [10, 5, 60, 20] ++ List.replicate 12 0,
  total_damage_taken := List.replicate 16 0, bump := 0 }

/-- The rumble produced by finalizing `wCombatFinal`: placements 3/4/1/2. -/
def wRumbleFinalized : Rumble := { wRumbleFinal with
  placements := [3, 4, 1, 2] ++ List.replicate 12 0,
  winner_index := 2,
  state := RumbleState.Payout,
  completed_at := 99 }

/-- A 2-fighter rumble in `Combat`, for the turn-resolution witnesses. -/
def wRumbleDuel : Rumble := { wRumble with
  state := RumbleState.Combat,
  fighter_count := 2,
  fighters := [101, 102] ++ List.replicate 14 0,
  betting_pools := [5, 5] ++ List.replicate 14 0,
  placements := List.replicate 16 0 }

/-- A 2-fighter combat in turn 1, reveal window closed at slot 20, both
fighters at 10 hp. -/
def wCombatDuel : RumbleCombatState := {
  rumble_id := 7, fighter_count := 2, current_turn := 1, turn_open_slot := 0,
  commit_close_slot := 10, reveal_close_slot := 20, turn_resolved := false,
  remaining_fighters := 2, winner_index := 255,
  hp := [10, 10] ++ List.replicate 14 0,
  meter := List.replicate 16 0,
  elimination_rank := List.replicate 16 0,
  total_damage_dealt := List.replicate 16 0,
  total_damage_taken := List.replicate 16 0, bump := 0 }

/-- The state after resolving `wCombatDuel`'s turn: with no reveals both
fighters fall back to a high strike (26 damage each), both die, and ranks 1
and 2 are assigned.  The operator path with the matching submitted duel
produces the same state. -/
def wCombatDuelAfter : RumbleCombatState := { wCombatDuel with
  turn_resolved := true,
  remaining_fighters := 0,
  hp := List.replicate 16 0,
  elimination_rank := [1, 2] ++ List.replicate 14 0,
  total_damage_dealt := [26, 26] ++ List.replicate 14 0,
  total_damage_taken := [26, 26] ++ List.replicate 14 0 }

/-- The operator submission matching `wCombatDuel`: one duel, slots 0 and 1,
both playing a high strike, 26 damage each way. -/
def wDuels : List DuelResult :=
  [{ fighter_a_idx := 0, fighter_b_idx := 1, move_a := 0, move_b := 0,
     damage_to_a := 26, damage_to_b := 26 }]

end RumbleEngine

namespace RumbleEngine

-- ---------------------------------------------------------------------------
-- General list lemmas used throughout.
-- ---------------------------------------------------------------------------

theorem getD_set_self {α : Type} (l : List α) (i : Nat) (v d : α) (h : i < l.length) :
    (l.set i v).getD i d = v := by
  simp [List.getD_eq_getElem?_getD, List.getElem?_set_self', h]

theorem getD_set_ne {α : Type} (l : List α) {i j : Nat} (v : α) (d : α) (h : i ≠ j) :
    (l.set i v).getD j d = l.getD j d := by
  simp [List.getD_eq_getElem?_getD, List.getElem?_set_ne h]

theorem getD_replicate_zero (n i : Nat) : (List.replicate n (0 : Nat)).getD i 0 = 0 := by
  rcases Nat.lt_or_ge i n with h | h
  · simp [List.getD_eq_getElem?_getD, List.getElem?_replicate, h]
  · have hn : (List.replicate n (0 : Nat))[i]? = none :=
      List.getElem?_eq_none (by simpa using h)
    simp [List.getD_eq_getElem?_getD, hn]

theorem getD_replicate_false (n i : Nat) :
    (List.replicate n false).getD i true = false ↔ i < n := by
  rcases Nat.lt_or_ge i n with h | h
  · simp [List.getD_eq_getElem?_getD, List.getElem?_replicate, h]
  · have hn : (List.replicate n false)[i]? = none :=
      List.getElem?_eq_none (by simpa using h)
    simp [List.getD_eq_getElem?_getD, hn, Nat.not_lt.mpr h]

theorem insertLe_perm {α : Type} (le : α → α → Bool) (a : α) (l : List α) :
    (insertLe le a l).Perm (a :: l) := by
  induction l with
  | nil => simp [insertLe]
  | cons b rest ih =>
    by_cases h : le a b
    · simp [insertLe, h]
    · simp only [insertLe, h, if_false, Bool.false_eq_true]
      exact ((ih.cons b).trans (List.Perm.swap a b rest))

theorem sortBy_perm {α : Type} (le : α → α → Bool) (l : List α) :
    (sortBy le l).Perm l := by
  induction l with
  | nil => simp [sortBy]
  | cons a rest ih => exact (insertLe_perm le a (sortBy le rest)).trans (ih.cons a)

theorem sortBy_mem {α : Type} (le : α → α → Bool) (l : List α) (x : α) :
    x ∈ sortBy le l ↔ x ∈ l := (sortBy_perm le l).mem_iff

theorem sortBy_nodup {α : Type} (le : α → α → Bool) (l : List α) (h : l.Nodup) :
    (sortBy le l).Nodup := ((sortBy_perm le l).nodup_iff).mpr h

-- ---------------------------------------------------------------------------
-- Payout-engine lemmas.
-- ---------------------------------------------------------------------------

theorem lazyAccrual_shape (r : Rumble) (b b1 : BettorAccount)
    (h : lazyAccrual r b = .ok b1) :
    b1 = { b with claimable_lamports := b1.claimable_lamports } := by
  unfold lazyAccrual at h
  split_ifs at h
  · rcases hps : poolSplit r with e | lf
    · rw [hps] at h; exact absurd h (by simp)
    · rcases lf with ⟨lp, fp⟩
      rw [hps] at h
      dsimp only at h
      split_ifs at h
      rcases hw : claimWinnings (lp - lp * TREASURY_CUT_BPS / 10000) fp
          (resolvedStake b r.winner_index) with e | w
      · rw [hw] at h; exact absurd h (by simp)
      · rw [hw] at h
        dsimp only at h
        split_ifs at h
        cases h; rfl
  · cases h; rfl

theorem claim_payout_state_ok (r : Rumble) (b : BettorAccount) (claimer : Pubkey)
    (now : Int) (b1 : BettorAccount) (amt : Nat)
    (h : claim_payout_state r b claimer now = .ok (b1, amt)) :
    (r.state = RumbleState.Payout ∨ r.state = RumbleState.Complete) ∧
    b.claimed = false ∧ b.authority = claimer ∧ b.rumble_id = r.id ∧
    r.winner_index < r.fighter_count ∧
    ∃ b2, lazyAccrual r b = .ok b2 ∧ 0 < b2.claimable_lamports ∧
      b2.total_claimed_lamports + b2.claimable_lamports < U64 ∧
      amt = b2.claimable_lamports ∧
      b1 = { b2 with
             claimable_lamports := 0,
             total_claimed_lamports := b2.total_claimed_lamports + amt,
             last_claim_ts := now,
             claimed := true } := by
  unfold claim_payout_state at h
  split_ifs at h with h1 h2 h3 h4 h5
  rcases hla : lazyAccrual r b with e | b2
  · rw [hla] at h; exact absurd h (by simp)
  · rw [hla] at h
    dsimp only at h
    split_ifs at h with h6 h7
    cases h
    refine ⟨h1, h2, h3, h4, h5, b2, rfl, h6, h7, rfl, rfl⟩

theorem claim_payout_ok (r : Rumble) (b : BettorAccount) (claimer : Pubkey)
    (now : Int) (vault : Nat) (b1 : BettorAccount) (amt : Nat)
    (h : claim_payout r b claimer now vault = .ok (b1, amt)) :
    claim_payout_state r b claimer now = .ok (b1, amt) ∧ amt ≤ vault := by
  unfold claim_payout at h
  rcases hs : claim_payout_state r b claimer now with e | pair
  · rw [hs] at h; exact absurd h (by simp)
  · rcases pair with ⟨b2, a2⟩
    rw [hs] at h
    dsimp only at h
    split_ifs at h with hv
    cases h
    exact ⟨rfl, hv⟩

/-- C1: for a contest in `Payout` or `Complete`, a first successful
`claim_payout` marks the bettor record claimed and adds the paid amount to
`total_claimed_lamports`; its full state update is exactly the one committed
by `claim_payout_state` before the vault transfer is attempted; and any
second `claim_payout` call against the persisted record — whatever signer,
clock, or vault balance — fails with `AlreadyClaimed`, so (since a failed
Solana instruction aborts without writing) every stored field of the record
is left unchanged. -/
theorem claim_payout_idempotent (r : Rumble) (b : BettorAccount) (claimer : Pubkey)
    (now : Int) (vault : Nat) (b1 : BettorAccount) (amt : Nat)
    (h : claim_payout r b claimer now vault = .ok (b1, amt)) :
    b1.claimed = true ∧
    b1.claimable_lamports = 0 ∧
    b1.total_claimed_lamports = b.total_claimed_lamports + amt ∧
    0 < amt ∧
    claim_payout_state r b claimer now = .ok (b1, amt) ∧
    (∀ (r2 : Rumble) (claimer2 : Pubkey) (now2 : Int) (vault2 : Nat),
      (r2.state = RumbleState.Payout ∨ r2.state = RumbleState.Complete) →
      claim_payout r2 b1 claimer2 now2 vault2 = .error RumbleError.AlreadyClaimed) := by
  obtain ⟨hstate, hvault⟩ := claim_payout_ok r b claimer now vault b1 amt h
  obtain ⟨_, _, _, _, _, b2, hla, hpos, hov, hamt, hb1⟩ :=
    claim_payout_state_ok r b claimer now b1 amt hstate
  have hshape := lazyAccrual_shape r b b2 hla
  have htc : b2.total_claimed_lamports = b.total_claimed_lamports := by
    rw [hshape]
  refine ⟨by rw [hb1], by rw [hb1], by rw [hb1]; simpa using htc, hamt ▸ hpos, hstate, ?_⟩
  intro r2 claimer2 now2 vault2 hst2
  have hcl : b1.claimed = true := by rw [hb1]
  unfold claim_payout claim_payout_state
  rw [if_pos hst2, if_neg (by simp [hcl])]

/-- Witness for C1 at the spec's concrete payout scenario. -/
theorem claim_payout_idempotent_witness :
    claim_payout wRumble wBettor 55 123 1000 = .ok (wBettorPaid, 190) ∧
    (wBettorPaid.claimed = true ∧
     wBettorPaid.claimable_lamports = 0 ∧
     wBettorPaid.total_claimed_lamports = wBettor.total_claimed_lamports + 190 ∧
     0 < 190 ∧
     claim_payout_state wRumble wBettor 55 123 = .ok (wBettorPaid, 190) ∧
     (∀ (r2 : Rumble) (claimer2 : Pubkey) (now2 : Int) (vault2 : Nat),
       (r2.state = RumbleState.Payout ∨ r2.state = RumbleState.Complete) →
       claim_payout r2 wBettorPaid claimer2 now2 vault2 =
         .error RumbleError.AlreadyClaimed)) :=
  ⟨rfl, claim_payout_idempotent wRumble wBettor 55 123 1000 wBettorPaid 190 rfl⟩

/-- C10: when the stored `claimable_lamports` is nonzero on entry, the lazy
block is skipped entirely, so `claim_payout` pays out exactly the stored
amount; no hypothesis about the winner's placement or about the bettor's stake
on the winner is needed. (`r.winner_index < r.fighter_count` is the generic
bounds check of line 1606, satisfied by every rumble that ever reached
`Payout`; the placement-1 and positive-stake requirements of lines 1616-1626
are only evaluated in the lazy branch.) -/
theorem claim_payout_stored_amount_no_winner_check (r : Rumble) (b : BettorAccount)
    (claimer : Pubkey) (now : Int) (vault : Nat)
    (hstate : r.state = RumbleState.Payout ∨ r.state = RumbleState.Complete)
    (hclaimed : b.claimed = false)
    (hauth : b.authority = claimer)
    (hid : b.rumble_id = r.id)
    (hwin : r.winner_index < r.fighter_count)
    (hcl : b.claimable_lamports ≠ 0)
    (hov : b.total_claimed_lamports + b.claimable_lamports < U64)
    (hvault : b.claimable_lamports ≤ vault) :
    claim_payout r b claimer now vault =
      .ok ({ b with
             claimable_lamports := 0,
             total_claimed_lamports := b.total_claimed_lamports + b.claimable_lamports,
             last_claim_ts := now,
             claimed := true }, b.claimable_lamports) := by
  have hla : lazyAccrual r b = .ok b := by
    unfold lazyAccrual
    rw [if_neg hcl]
  unfold claim_payout claim_payout_state
  rw [if_pos hstate, if_pos hclaimed, if_pos hauth, if_pos hid, if_pos hwin, hla]
  dsimp only
  rw [if_pos (Nat.pos_of_ne_zero hcl), if_pos hov]
  dsimp only
  rw [if_pos hvault]

/-- Witness for C10: the winner slot of `wRumbleStored` does not hold
placement 1 and the bettor's stake breakdown is irrelevant, yet the stored
claimable amount of 500 lamports is paid out in full. -/
theorem claim_payout_stored_amount_witness :
    (wRumbleStored.placements.getD wRumbleStored.winner_index 0 ≠ 1 ∧
     wRumbleStored.state = RumbleState.Payout ∧
     wBettorStored.claimed = false ∧
     wBettorStored.authority = 55 ∧
     wBettorStored.rumble_id = wRumbleStored.id ∧
     wRumbleStored.winner_index < wRumbleStored.fighter_count ∧
     wBettorStored.claimable_lamports ≠ 0 ∧
     wBettorStored.total_claimed_lamports + wBettorStored.claimable_lamports < U64 ∧
     wBettorStored.claimable_lamports ≤ 1000) ∧
    claim_payout wRumbleStored wBettorStored 55 9 1000 =
      .ok ({ wBettorStored with
             claimable_lamports := 0,
             total_claimed_lamports :=
               wBettorStored.total_claimed_lamports + wBettorStored.claimable_lamports,
             last_claim_ts := 9,
             claimed := true }, wBettorStored.claimable_lamports) :=
  ⟨by decide,
   claim_payout_stored_amount_no_winner_check wRumbleStored wBettorStored 55 9 1000
     (Or.inl rfl) rfl rfl rfl (by decide) (by decide) (by decide) (by decide)⟩

/-- C3 counterexample: `admin_set_result` accepts the placements vector
`[1, 1]` for a 2-fighter contest in `Betting` — a vector that is neither
duplicate-free nor a permutation of 1..2 — refuting the claim that the
override carries the same placement-validity checks as finalization. -/
theorem admin_set_result_accepts_duplicates :
    isErr (admin_set_result wRumbleAdmin [1, 1] 0 9) = false ∧
    ¬ List.Nodup [1, 1] ∧
    ¬ List.Perm [1, 1] (List.range' 1 wRumbleAdmin.fighter_count) := by
  refine ⟨rfl, by decide, ?_⟩
  intro hperm
  have := hperm.nodup_iff.mpr (by decide)
  exact absurd this (by decide)

/-- C3 amended: `admin_set_result` accepts a placements vector exactly when
the contest is in `Betting` or `Combat`, the vector's length equals the
fighter count, the declared winner index is in range, and the vector assigns
placement 1 to the declared winner; distinctness and the 1..N range of the
remaining entries are not validated. -/
theorem admin_set_result_checks_iff (r : Rumble) (placements : List Nat) (w : Nat)
    (now : Int) :
    isErr (admin_set_result r placements w now) = false ↔
      ((r.state = RumbleState.Betting ∨ r.state = RumbleState.Combat) ∧
       placements.length = r.fighter_count ∧
       w < r.fighter_count ∧
       placements.getD w 0 = 1) := by
  unfold admin_set_result
  split_ifs with h1 h2 h3 h4
  · exact iff_of_true rfl ⟨h1, h2, h3, h4⟩
  · exact iff_of_false (by simp [isErr]) (fun hc => h4 hc.2.2.2)
  · exact iff_of_false (by simp [isErr]) (fun hc => h3 hc.2.2.1)
  · exact iff_of_false (by simp [isErr]) (fun hc => h2 hc.2.1)
  · exact iff_of_false (by simp [isErr]) (fun hc => h1 hc.1)

/-- C4 counterexample: a contest whose pools each fit in a u64 (the losing
pool is `2^60` lamports) on which the payout computation aborts with
`MathOverflow`: the treasury-cut multiplication
`losers_pool.checked_mul(TREASURY_CUT_BPS)` is performed in u64, not in the
widened u128 domain, refuting the claim that no overflow occurs whenever each
pool fits in u64. -/
theorem claim_payout_treasury_cut_overflow :
    claim_payout_state wRumbleOverflow wBettorOverflow 55 123 =
      .error RumbleError.MathOverflow ∧
    wRumbleOverflow.betting_pools.all (fun p => decide (p < U64)) = true ∧
    wRumbleOverflow.state = RumbleState.Payout ∧
    wBettorOverflow.claimable_lamports = 0 ∧
    0 < wBettorOverflow.fighter_deployments.getD wRumbleOverflow.winner_index 0 :=
  ⟨rfl, rfl, rfl, rfl, by decide⟩

-- ---------------------------------------------------------------------------
-- Arithmetic lemmas for the pari-mutuel conservation bound.
-- ---------------------------------------------------------------------------

theorem poolLoop_bounds (r : Rumble) :
    ∀ (l : List Nat) (lp fp L F : Nat), poolLoop r l (lp, fp) = .ok (L, F) →
      lp < U64 → fp < U64 → L < U64 ∧ F < U64 := by
  intro l
  induction l with
  | nil => intro lp fp L F h h1 h2; cases h; exact ⟨h1, h2⟩
  | cons i rest ih =>
    intro lp fp L F h h1 h2
    unfold poolLoop at h
    split_ifs at h with hp hov hov
    · exact ih _ _ _ _ h h1 hov
    · exact ih _ _ _ _ h hov h2

theorem treasuryCut_le (L : Nat) : L * TREASURY_CUT_BPS / 10000 ≤ L := by
  calc L * TREASURY_CUT_BPS / 10000 ≤ L * 10000 / 10000 :=
        Nat.div_le_div_right (Nat.mul_le_mul_left L (by norm_num [TREASURY_CUT_BPS]))
    _ = L := Nat.mul_div_cancel L (by norm_num)

theorem div_add_div_le (a b c : Nat) : a / c + b / c ≤ (a + b) / c := by
  rcases Nat.eq_zero_or_pos c with hc | hc
  · simp [hc]
  · rw [Nat.le_div_iff_mul_le hc]
    calc (a / c + b / c) * c = a / c * c + b / c * c := by ring
      _ ≤ a + b := Nat.add_le_add (Nat.div_mul_le_self a c) (Nat.div_mul_le_self b c)

theorem sum_div_le (d F : Nat) :
    ∀ l : List Nat, ((l.map fun s => d * s / F).sum ≤ d * l.sum / F) := by
  intro l
  induction l with
  | nil => simp
  | cons s rest ih =>
    calc (((s :: rest).map fun s => d * s / F).sum)
        = d * s / F + ((rest.map fun s => d * s / F).sum) := by simp
      _ ≤ d * s / F + d * rest.sum / F := Nat.add_le_add_left ih _
      _ ≤ (d * s + d * rest.sum) / F := div_add_div_le _ _ _
      _ = d * (s :: rest).sum / F := by rw [List.sum_cons, Nat.mul_add]

theorem sum_div_exact (d F : Nat) (hF : 0 < F) :
    ∀ l : List Nat, (∀ s ∈ l, F ∣ d * s) →
      ((l.map fun s => d * s / F).sum = d * l.sum / F) := by
  intro l
  induction l with
  | nil => simp
  | cons s rest ih =>
    intro hdvd
    obtain ⟨k, hk⟩ := hdvd s (List.mem_cons_self s rest)
    have hrest := ih fun x hx => hdvd x (List.mem_cons_of_mem s hx)
    calc (((s :: rest).map fun s => d * s / F).sum)
        = d * s / F + ((rest.map fun s => d * s / F).sum) := by simp
      _ = k + d * rest.sum / F := by rw [hrest, hk, Nat.mul_div_cancel_left k hF]
      _ = (F * k + d * rest.sum) / F := by rw [Nat.mul_add_div hF]
      _ = d * (s :: rest).sum / F := by rw [← hk, List.sum_cons, Nat.mul_add]

theorem map_payout_sum (dist F : Nat) (l : List Nat) :
    (l.map (payoutFor dist F)).sum = l.sum + ((l.map fun s => dist * s / F).sum) := by
  induction l with
  | nil => simp
  | cons s rest ih => simp [payoutFor, ih]; omega

theorem mem_le_sum (l : List Nat) (s : Nat) (h : s ∈ l) : s ≤ l.sum := by
  induction l with
  | nil => cases h
  | cons a rest ih =>
    rcases List.mem_cons.mp h with rfl | hm
    · simp
    · calc s ≤ rest.sum := ih hm
        _ ≤ (a :: rest).sum := by simp

theorem claimWinnings_exact (d F s : Nat) (hd : d < U64) (hs : s ≤ F) (hF : F < U64) :
    claimWinnings d F s = .ok (d * s / F) := by
  unfold claimWinnings
  rcases Nat.eq_zero_or_pos F with hF0 | hF0
  · subst hF0
    rw [if_neg (by omega)]
    simp [Nat.le_zero.mp hs]
  · rw [if_pos hF0]
    have hprod : d * s < U128 := by
      have h1 : d * s < U64 * U64 :=
        Nat.mul_lt_mul_of_lt_of_le hd (le_trans hs (Nat.le_of_lt hF)) (by norm_num [U64])
      have h2 : U64 * U64 = U128 := by
        unfold U64 U128; rw [← pow_add]
      omega
    rw [if_pos hprod]
    have hle : d * s / F ≤ d := by
      calc d * s / F ≤ d * F / F := Nat.div_le_div_right (Nat.mul_le_mul_left d hs)
        _ = d := Nat.mul_div_cancel d hF0
    rw [Nat.mod_eq_of_lt (lt_of_le_of_lt hle hd)]

/-- C4 (amended): pari-mutuel conservation.  For the program-computed pool
split `(L, F)` (losers' pool, winner pool) of a finalized contest, with the
treasury-cut multiplication in range, and any family of positive winning
stakes summing to the winner pool, the summed payouts
`payoutFor (L - cut) F s = s + (L - cut)·s/F` are at most
`F + L - cut` (winner pool + losers' pool − treasury cut), with equality when
the winner pool is nonzero and every proportional division is exact; and the
widened u128 share multiplication `claimWinnings` never overflows for such
stakes — it returns exactly the floor-divided share.  (The u64 treasury-cut
multiplication, by contrast, can overflow: see the counterexample.) -/
theorem pari_mutuel_conservation (r : Rumble) (L F : Nat) (stakes : List Nat)
    (hsplit : poolSplit r = .ok (L, F))
    (hcut : L * TREASURY_CUT_BPS < U64)
    (hsum : stakes.sum = F)
    (hpos : ∀ s ∈ stakes, 0 < s) :
    (stakes.map (payoutFor (L - L * TREASURY_CUT_BPS / 10000) F)).sum ≤
      F + L - L * TREASURY_CUT_BPS / 10000 ∧
    ((0 < F ∧ ∀ s ∈ stakes, F ∣ (L - L * TREASURY_CUT_BPS / 10000) * s) →
      (stakes.map (payoutFor (L - L * TREASURY_CUT_BPS / 10000) F)).sum =
        F + L - L * TREASURY_CUT_BPS / 10000) ∧
    (∀ s ∈ stakes,
      claimWinnings (L - L * TREASURY_CUT_BPS / 10000) F s =
        .ok ((L - L * TREASURY_CUT_BPS / 10000) * s / F)) := by
  have hLF : L < U64 ∧ F < U64 := by
    unfold poolSplit at hsplit
    exact poolLoop_bounds r _ 0 0 L F hsplit (by norm_num [U64]) (by norm_num [U64])
  have hcutle := treasuryCut_le L
  have hdlt : L - L * TREASURY_CUT_BPS / 10000 < U64 := by omega
  refine ⟨?_, ?_, ?_⟩
  · rw [map_payout_sum, hsum]
    have h1 := sum_div_le (L - L * TREASURY_CUT_BPS / 10000) F stakes
    rw [hsum] at h1
    have h2 : (L - L * TREASURY_CUT_BPS / 10000) * F / F ≤
        L - L * TREASURY_CUT_BPS / 10000 := by
      rcases Nat.eq_zero_or_pos F with hF0 | hF0
      · simp [hF0]
      · rw [Nat.mul_div_cancel _ hF0]
    omega
  · rintro ⟨hF0, hex⟩
    rw [map_payout_sum, hsum]
    have h1 := sum_div_exact (L - L * TREASURY_CUT_BPS / 10000) F hF0 stakes hex
    rw [hsum, Nat.mul_div_cancel _ hF0] at h1
    omega
  · intro s hs
    exact claimWinnings_exact _ _ _ hdlt (hsum ▸ mem_le_sum stakes s hs) hLF.2

/-- Witness for C4 at the spec's two-backer scenario: stakes 60 and 40 on a
winner pool of 100, losers' pool 100, cut 10, distributable 90; payouts
114 + 76 = 190 = 100 + 100 − 10. -/
theorem pari_mutuel_conservation_witness :
    (poolSplit wRumbleCons = .ok (100, 100) ∧
     100 * TREASURY_CUT_BPS < U64 ∧
     ([60, 40] : List Nat).sum = 100 ∧
     (∀ s ∈ ([60, 40] : List Nat), 0 < s)) ∧
    (((([60, 40] : List Nat).map
        (payoutFor (100 - 100 * TREASURY_CUT_BPS / 10000) 100)).sum ≤
        100 + 100 - 100 * TREASURY_CUT_BPS / 10000) ∧
     ((0 < 100 ∧ ∀ s ∈ ([60, 40] : List Nat),
         100 ∣ (100 - 100 * TREASURY_CUT_BPS / 10000) * s) →
       ((([60, 40] : List Nat).map
           (payoutFor (100 - 100 * TREASURY_CUT_BPS / 10000) 100)).sum =
         100 + 100 - 100 * TREASURY_CUT_BPS / 10000)) ∧
     (∀ s ∈ ([60, 40] : List Nat),
       claimWinnings (100 - 100 * TREASURY_CUT_BPS / 10000) 100 s =
         .ok ((100 - 100 * TREASURY_CUT_BPS / 10000) * s / 100))) :=
  ⟨⟨rfl, by decide, rfl, by decide⟩,
   pari_mutuel_conservation wRumbleCons 100 100 [60, 40] rfl (by decide) rfl (by decide)⟩

/-- C5: for a first claim (stored claimable amount zero) by a bettor with a
positive stake on the winning slot, `claim_payout` computes exactly
`payoutFor distributable first_pool stake`, i.e. the winning stake plus
`⌊(losers_pool − ⌊losers_pool·1000/10000⌋) · stake / first_pool⌋`, where the
pools come from the program's own split of the betting pools by placement;
and at the spec's concrete 4-fighter scenario (pools 100/50/30/20, slot 0
winning, sole backer stake 100) the payout is exactly 190. -/
theorem claim_payout_formula (r : Rumble) (b : BettorAccount) (claimer : Pubkey)
    (now : Int) (L F : Nat)
    (hstate : r.state = RumbleState.Payout ∨ r.state = RumbleState.Complete)
    (hclaimed : b.claimed = false)
    (hauth : b.authority = claimer)
    (hid : b.rumble_id = r.id)
    (hwin : r.winner_index < r.fighter_count)
    (hzero : b.claimable_lamports = 0)
    (hplace : r.placements.getD r.winner_index 0 = 1)
    (hwd : 0 < resolvedStake b r.winner_index)
    (hsplit : poolSplit r = .ok (L, F))
    (hcut : L * TREASURY_CUT_BPS < U64)
    (hle : resolvedStake b r.winner_index ≤ F)
    (hov1 : payoutFor (L - L * TREASURY_CUT_BPS / 10000) F
        (resolvedStake b r.winner_index) < U64)
    (hov2 : b.total_claimed_lamports +
        payoutFor (L - L * TREASURY_CUT_BPS / 10000) F
          (resolvedStake b r.winner_index) < U64) :
    (claim_payout_state r b claimer now =
      .ok ({ b with
             claimable_lamports := 0,
             total_claimed_lamports := b.total_claimed_lamports +
               payoutFor (L - L * TREASURY_CUT_BPS / 10000) F
                 (resolvedStake b r.winner_index),
             last_claim_ts := now,
             claimed := true },
           payoutFor (L - L * TREASURY_CUT_BPS / 10000) F
             (resolvedStake b r.winner_index))) ∧
    claim_payout_state wRumble wBettor 55 123 = .ok (wBettorPaid, 190) := by
  have hLF : L < U64 ∧ F < U64 := by
    unfold poolSplit at hsplit
    exact poolLoop_bounds r _ 0 0 L F hsplit (by norm_num [U64]) (by norm_num [U64])
  have hcutle := treasuryCut_le L
  have hcw := claimWinnings_exact (L - L * TREASURY_CUT_BPS / 10000) F
    (resolvedStake b r.winner_index) (by omega) hle hLF.2
  have hla : lazyAccrual r b =
      .ok { b with
            claimable_lamports := payoutFor (L - L * TREASURY_CUT_BPS / 10000) F
              (resolvedStake b r.winner_index) } := by
    unfold lazyAccrual
    rw [if_pos hzero, if_pos hplace, if_pos hwd, hsplit]
    dsimp only
    rw [if_pos hcut, if_pos hcutle, hcw]
    dsimp only
    rw [if_pos (show resolvedStake b r.winner_index +
        (L - L * TREASURY_CUT_BPS / 10000) * resolvedStake b r.winner_index / F < U64
      by unfold payoutFor at hov1; exact hov1)]
    unfold payoutFor
    rfl
  refine ⟨?_, rfl⟩
  unfold claim_payout_state
  rw [if_pos hstate, if_pos hclaimed, if_pos hauth, if_pos hid, if_pos hwin, hla]
  dsimp only
  have hpos1 : 0 < payoutFor (L - L * TREASURY_CUT_BPS / 10000) F
      (resolvedStake b r.winner_index) := by
    unfold payoutFor
    exact Nat.lt_of_lt_of_le hwd (Nat.le_add_right _ _)
  rw [if_pos hpos1, if_pos hov2]

/-- Witness for C5 at the spec scenario: losers' pool 100, cut 10,
distributable 90, winner pool 100, stake 100, payout 190. -/
theorem claim_payout_formula_witness :
    (wRumble.state = RumbleState.Payout ∧
     wBettor.claimable_lamports = 0 ∧
     wRumble.placements.getD wRumble.winner_index 0 = 1 ∧
     0 < resolvedStake wBettor wRumble.winner_index ∧
     poolSplit wRumble = .ok (100, 100) ∧
     payoutFor (100 - 100 * TREASURY_CUT_BPS / 10000) 100
       (resolvedStake wBettor wRumble.winner_index) = 190) ∧
    claim_payout_state wRumble wBettor 55 123 =
      .ok ({ wBettor with
             claimable_lamports := 0,
             total_claimed_lamports := wBettor.total_claimed_lamports +
               payoutFor (100 - 100 * TREASURY_CUT_BPS / 10000) 100
                 (resolvedStake wBettor wRumble.winner_index),
             last_claim_ts := 123,
             claimed := true },
           payoutFor (100 - 100 * TREASURY_CUT_BPS / 10000) 100
             (resolvedStake wBettor wRumble.winner_index)) :=
  ⟨⟨rfl, rfl, rfl, by decide, rfl, rfl⟩,
   (claim_payout_formula wRumble wBettor 55 123 100 100 (Or.inl rfl) rfl rfl rfl
     (by decide) rfl rfl (by decide) rfl (by decide) (by decide) (by decide)
     (by decide)).1⟩

-- ---------------------------------------------------------------------------
-- Commit-reveal binding (C6).
-- ---------------------------------------------------------------------------

/-- C6: a `reveal_move` whose recomputed commitment hash (over the domain tag,
contest id, round, participant, move and salt) differs from the stored hash
always fails, and a `reveal_move` against a commitment already marked revealed
always fails; since a failed instruction aborts the transaction, the stored
commitment record (its `revealed` flag and `revealed_move`) is unchanged in
both cases. -/
theorem reveal_move_binding (sha : List Nat → List Nat) (r : Rumble)
    (c : RumbleCombatState) (mc : MoveCommitment) (fighter : Pubkey)
    (rumble_id turn move_code : Nat) (salt : List Nat) (slot : Nat) :
    (mc.revealed = true →
      isErr (reveal_move sha r c mc fighter rumble_id turn move_code salt slot) = true) ∧
    (compute_move_commitment_hash sha rumble_id turn fighter move_code salt ≠ mc.move_hash →
      isErr (reveal_move sha r c mc fighter rumble_id turn move_code salt slot) = true) := by
  constructor
  · intro hrev
    unfold reveal_move
    split_ifs with h1 h2 h3 h4 h5 h6 h7 h8 h9
    all_goals try rfl
    rw [hrev] at h8
    exact absurd h8 (by simp)
  · intro hne
    unfold reveal_move
    split_ifs <;> rfl

/-- Witness for C6: a hash-mismatched reveal and a second reveal both fail on
concrete combat state, for the concrete hash oracle `sha0`. -/
theorem reveal_move_binding_witness :
    (wCommitRevealed.revealed = true ∧
     isErr (reveal_move sha0 wRumbleCombat wCombat wCommitRevealed 101 7 1 4
       (List.replicate 32 2) 12) = true) ∧
    (compute_move_commitment_hash sha0 7 1 101 4 (List.replicate 32 2) ≠
       wCommitMismatch.move_hash ∧
     isErr (reveal_move sha0 wRumbleCombat wCombat wCommitMismatch 101 7 1 4
       (List.replicate 32 2) 12) = true) :=
  ⟨⟨rfl, (reveal_move_binding sha0 wRumbleCombat wCombat wCommitRevealed 101 7 1 4
      (List.replicate 32 2) 12).1 rfl⟩,
   ⟨by decide, (reveal_move_binding sha0 wRumbleCombat wCombat wCommitMismatch 101 7 1 4
      (List.replicate 32 2) 12).2 (by decide)⟩⟩

-- ---------------------------------------------------------------------------
-- Duel-resolution symmetry (C9).
-- ---------------------------------------------------------------------------

theorem resolve_duel_meter_norm (a b ma mb : Nat) :
    resolve_duel a b ma mb =
      resolve_duel a b (if SPECIAL_METER_COST ≤ ma then 100 else 0)
        (if SPECIAL_METER_COST ≤ mb then 100 else 0) := by
  have hc1 : SPECIAL_METER_COST ≤ (100 : Nat) := by norm_num [SPECIAL_METER_COST]
  have hc0 : ¬ SPECIAL_METER_COST ≤ (0 : Nat) := by norm_num [SPECIAL_METER_COST]
  by_cases h1 : SPECIAL_METER_COST ≤ ma <;> by_cases h2 : SPECIAL_METER_COST ≤ mb
  · rw [if_pos h1, if_pos h2]
    unfold resolve_duel
    simp only [eq_true h1, eq_true h2, eq_true hc1, and_true]
  · rw [if_pos h1, if_neg h2]
    unfold resolve_duel
    simp only [eq_true h1, eq_false h2, eq_true hc1, eq_false hc0, and_true, and_false]
  · rw [if_neg h1, if_pos h2]
    unfold resolve_duel
    simp only [eq_false h1, eq_true h2, eq_true hc1, eq_false hc0, and_true, and_false]
  · rw [if_neg h1, if_neg h2]
    unfold resolve_duel
    simp only [eq_false h1, eq_false h2, eq_false hc0, and_false]

theorem resolve_duel_symm_fin : ∀ (a b : Fin 9) (x y : Fin 2),
    resolve_duel (b : Nat) (a : Nat) (100 * (y : Nat)) (100 * (x : Nat)) =
      ((resolve_duel (a : Nat) (b : Nat) (100 * (x : Nat)) (100 * (y : Nat))).2.1,
       (resolve_duel (a : Nat) (b : Nat) (100 * (x : Nat)) (100 * (y : Nat))).1,
       (resolve_duel (a : Nat) (b : Nat) (100 * (x : Nat)) (100 * (y : Nat))).2.2.2,
       (resolve_duel (a : Nat) (b : Nat) (100 * (x : Nat)) (100 * (y : Nat))).2.2.1) := by
  decide

theorem resolve_duel_failed_special_fin : ∀ (b : Fin 9) (y : Fin 2),
    (resolve_duel 8 (b : Nat) 0 (100 * (y : Nat))).2.1 = 0 ∧
    (resolve_duel 8 (b : Nat) 0 (100 * (y : Nat))).2.2.1 = 0 := by
  decide

/-- C9: `resolve_duel` is symmetric — swapping the two fighters swaps the
damage pair and the meter-use pair — and a special move attempted with meter
below `SPECIAL_METER_COST` deals no damage to the opponent and consumes no
meter. -/
theorem resolve_duel_symmetric :
    (∀ a b ma mb : Nat, a ≤ 8 → b ≤ 8 →
      resolve_duel b a mb ma =
        ((resolve_duel a b ma mb).2.1, (resolve_duel a b ma mb).1,
         (resolve_duel a b ma mb).2.2.2, (resolve_duel a b ma mb).2.2.1)) ∧
    (∀ b ma mb : Nat, b ≤ 8 → ma < SPECIAL_METER_COST →
      (resolve_duel MOVE_SPECIAL b ma mb).2.1 = 0 ∧
      (resolve_duel MOVE_SPECIAL b ma mb).2.2.1 = 0) := by
  constructor
  · intro a b ma mb ha hb
    rw [resolve_duel_meter_norm b a mb ma, resolve_duel_meter_norm a b ma mb]
    have hma : (if SPECIAL_METER_COST ≤ ma then 100 else 0) =
        100 * (((if SPECIAL_METER_COST ≤ ma then 1 else 0) : Fin 2) : Nat) := by
      split <;> rfl
    have hmb : (if SPECIAL_METER_COST ≤ mb then 100 else 0) =
        100 * (((if SPECIAL_METER_COST ≤ mb then 1 else 0) : Fin 2) : Nat) := by
      split <;> rfl
    rw [hma, hmb]
    exact resolve_duel_symm_fin ⟨a, by omega⟩ ⟨b, by omega⟩
      (if SPECIAL_METER_COST ≤ ma then 1 else 0) (if SPECIAL_METER_COST ≤ mb then 1 else 0)
  · intro b ma mb hb hma
    rw [resolve_duel_meter_norm]
    rw [if_neg (by omega)]
    have hmb : (if SPECIAL_METER_COST ≤ mb then 100 else 0) =
        100 * (((if SPECIAL_METER_COST ≤ mb then 1 else 0) : Fin 2) : Nat) := by
      split <;> rfl
    rw [hmb]
    exact resolve_duel_failed_special_fin ⟨b, by omega⟩
      (if SPECIAL_METER_COST ≤ mb then 1 else 0)

/-- Witness for C9: symmetry at (high strike vs matching guard) and the
failed-special case at meter 50. -/
theorem resolve_duel_symmetric_witness :
    ((0 : Nat) ≤ 8 ∧ (3 : Nat) ≤ 8 ∧
     resolve_duel 3 0 0 0 =
       ((resolve_duel 0 3 0 0).2.1, (resolve_duel 0 3 0 0).1,
        (resolve_duel 0 3 0 0).2.2.2, (resolve_duel 0 3 0 0).2.2.1)) ∧
    ((1 : Nat) ≤ 8 ∧ 50 < SPECIAL_METER_COST ∧
     ((resolve_duel MOVE_SPECIAL 1 50 0).2.1 = 0 ∧
      (resolve_duel MOVE_SPECIAL 1 50 0).2.2.1 = 0)) :=
  ⟨⟨by decide, by decide, resolve_duel_symmetric.1 0 3 0 0 (by decide) (by decide)⟩,
   ⟨by decide, by decide, resolve_duel_symmetric.2 1 50 0 (by decide) (by decide)⟩⟩

-- ---------------------------------------------------------------------------
-- Sequential placement assignment (C2).
-- ---------------------------------------------------------------------------

theorem assignSeq_length : ∀ (l : List Nat) (p : List Nat) (n : Nat),
    (assignSeq p n l).1.length = p.length := by
  intro l
  induction l with
  | nil => intro p n; rfl
  | cons i rest ih =>
    intro p n
    unfold assignSeq
    rw [ih]
    simp

theorem assignSeq_snd : ∀ (l : List Nat) (p : List Nat) (n : Nat),
    (assignSeq p n l).2 = n + l.length := by
  intro l
  induction l with
  | nil => intro p n; simp [assignSeq]
  | cons i rest ih =>
    intro p n
    unfold assignSeq
    rw [ih]
    simp [Nat.add_comm, Nat.add_assoc, Nat.add_left_comm]

theorem assignSeq_getD_not_mem : ∀ (l : List Nat) (p : List Nat) (n i : Nat),
    i ∉ l → (assignSeq p n l).1.getD i 0 = p.getD i 0 := by
  intro l
  induction l with
  | nil => intro p n i _; rfl
  | cons j rest ih =>
    intro p n i hi
    unfold assignSeq
    rw [ih _ _ _ (fun hmem => hi (List.mem_cons_of_mem j hmem)),
      getD_set_ne _ _ _ (fun hj => hi (by rw [← hj]; exact List.mem_cons_self j rest))]

theorem assignSeq_map : ∀ (l : List Nat) (p : List Nat) (n : Nat),
    l.Nodup → (∀ i ∈ l, i < p.length) →
    (l.map fun i => (assignSeq p n l).1.getD i 0) = List.range' n l.length := by
  intro l
  induction l with
  | nil => intro p n _ _; rfl
  | cons j rest ih =>
    intro p n hnd hlt
    have hjrest : j ∉ rest := (List.nodup_cons.mp hnd).1
    have hrest : rest.Nodup := (List.nodup_cons.mp hnd).2
    show ((assignSeq (p.set j n) (n + 1) rest).1.getD j 0) ::
        (rest.map fun i => (assignSeq (p.set j n) (n + 1) rest).1.getD i 0) =
      List.range' n (rest.length + 1)
    rw [assignSeq_getD_not_mem rest _ _ _ hjrest,
      getD_set_self _ _ _ _ (hlt j (List.mem_cons_self j rest)),
      ih (p.set j n) (n + 1) hrest
        (fun i hi => by rw [List.length_set]; exact hlt i (List.mem_cons_of_mem j hi)),
      List.range'_succ]

theorem fillZeros_eq : ∀ (l : List Nat) (p : List Nat) (n : Nat), l.Nodup →
    fillZeros p n l = assignSeq p n (l.filter fun i => decide (p.getD i 0 = 0)) := by
  intro l
  induction l with
  | nil => intro p n _; rfl
  | cons j rest ih =>
    intro p n hnd
    have hjrest : j ∉ rest := (List.nodup_cons.mp hnd).1
    have hrest : rest.Nodup := (List.nodup_cons.mp hnd).2
    by_cases hj : p.getD j 0 = 0
    · have hfilter : (rest.filter fun i => decide ((p.set j n).getD i 0 = 0)) =
          (rest.filter fun i => decide (p.getD i 0 = 0)) := by
        apply List.filter_congr
        intro i hi
        rw [getD_set_ne _ _ _ (fun hji => hjrest (by rw [hji]; exact hi))]
      have hcons : ((j :: rest).filter fun i => decide (p.getD i 0 = 0)) =
          j :: (rest.filter fun i => decide (p.getD i 0 = 0)) := by
        rw [List.filter_cons, if_pos (decide_eq_true hj)]
      rw [hcons]
      unfold fillZeros assignSeq
      rw [if_pos hj, ih (p.set j n) (n + 1) hrest, hfilter]
    · have hcons : ((j :: rest).filter fun i => decide (p.getD i 0 = 0)) =
          (rest.filter fun i => decide (p.getD i 0 = 0)) := by
        rw [List.filter_cons, if_neg (by simpa using hj)]
      rw [hcons]
      unfold fillZeros
      rw [if_neg hj, ih p n hrest]

theorem survivorsOf_mem (r : Rumble) (c : RumbleCombatState) (w i : Nat) :
    i ∈ survivorsOf r c w ↔
      (i < r.fighter_count ∧ i ≠ w ∧ 0 < c.hp.getD i 0 ∧
       c.elimination_rank.getD i 0 = 0) := by
  unfold survivorsOf
  rw [sortBy_mem, List.mem_filter]
  simp [List.mem_range]

theorem survivorsOf_nodup (r : Rumble) (c : RumbleCombatState) (w : Nat) :
    (survivorsOf r c w).Nodup :=
  sortBy_nodup _ _ ((List.nodup_range r.fighter_count).filter _)

theorem placeStage1_length (r : Rumble) (c : RumbleCombatState) (w : Nat) :
    (placeStage1 r c w).1.length = 16 := by
  unfold placeStage1
  rw [assignSeq_length]
  simp [MAX_FIGHTERS]

theorem placeStage1_snd (r : Rumble) (c : RumbleCombatState) (w : Nat) :
    (placeStage1 r c w).2 = 2 + (survivorsOf r c w).length := by
  unfold placeStage1
  rw [assignSeq_snd]

theorem placeStage1_map (r : Rumble) (c : RumbleCombatState) (w : Nat)
    (hN16 : r.fighter_count ≤ MAX_FIGHTERS) :
    ((survivorsOf r c w).map fun i => (placeStage1 r c w).1.getD i 0) =
      List.range' 2 (survivorsOf r c w).length := by
  unfold placeStage1
  apply assignSeq_map _ _ _ (survivorsOf_nodup r c w)
  intro i hi
  have := ((survivorsOf_mem r c w i).mp hi).1
  simp only [List.length_set, List.length_replicate]
  unfold MAX_FIGHTERS at hN16 ⊢
  omega

theorem placeStage1_not_mem (r : Rumble) (c : RumbleCombatState) (w i : Nat)
    (h : i ∉ survivorsOf r c w) :
    (placeStage1 r c w).1.getD i 0 =
      ((List.replicate MAX_FIGHTERS 0).set w 1).getD i 0 := by
  unfold placeStage1
  exact assignSeq_getD_not_mem _ _ _ _ h

theorem placeStage1_getD_w (r : Rumble) (c : RumbleCombatState) (w : Nat)
    (hw : w < MAX_FIGHTERS) :
    (placeStage1 r c w).1.getD w 0 = 1 := by
  rw [placeStage1_not_mem r c w w (fun h => ((survivorsOf_mem r c w w).mp h).2.1 rfl)]
  apply getD_set_self
  simpa [MAX_FIGHTERS] using hw

theorem placeStage1_getD_other (r : Rumble) (c : RumbleCombatState) (w i : Nat)
    (hne : i ≠ w) (h : i ∉ survivorsOf r c w) :
    (placeStage1 r c w).1.getD i 0 = 0 := by
  rw [placeStage1_not_mem r c w i h,
    getD_set_ne _ _ _ (fun hwi => hne hwi.symm), getD_replicate_zero]

theorem placeStage1_mem_ge (r : Rumble) (c : RumbleCombatState) (w i : Nat)
    (hN16 : r.fighter_count ≤ MAX_FIGHTERS) (h : i ∈ survivorsOf r c w) :
    2 ≤ (placeStage1 r c w).1.getD i 0 := by
  have hmem : (placeStage1 r c w).1.getD i 0 ∈
      List.range' 2 (survivorsOf r c w).length := by
    rw [← placeStage1_map r c w hN16]
    exact List.mem_map_of_mem _ h
  exact (List.mem_range'_1.mp hmem).1

theorem eliminatedOf_mem (r : Rumble) (c : RumbleCombatState) (w i : Nat) :
    i ∈ eliminatedOf r c w ↔
      (i < r.fighter_count ∧ (placeStage1 r c w).1.getD i 0 = 0 ∧
       0 < c.elimination_rank.getD i 0) := by
  unfold eliminatedOf
  rw [sortBy_mem, List.mem_filter]
  simp [List.mem_range]

theorem eliminatedOf_nodup (r : Rumble) (c : RumbleCombatState) (w : Nat) :
    (eliminatedOf r c w).Nodup :=
  sortBy_nodup _ _ ((List.nodup_range r.fighter_count).filter _)

theorem placeStage2_length (r : Rumble) (c : RumbleCombatState) (w : Nat) :
    (placeStage2 r c w).1.length = 16 := by
  unfold placeStage2
  rw [assignSeq_length, placeStage1_length]

theorem placeStage2_snd (r : Rumble) (c : RumbleCombatState) (w : Nat) :
    (placeStage2 r c w).2 = (placeStage1 r c w).2 + (eliminatedOf r c w).length := by
  unfold placeStage2
  rw [assignSeq_snd]

theorem placeStage2_map (r : Rumble) (c : RumbleCombatState) (w : Nat)
    (hN16 : r.fighter_count ≤ MAX_FIGHTERS) :
    ((eliminatedOf r c w).map fun i => (placeStage2 r c w).1.getD i 0) =
      List.range' (placeStage1 r c w).2 (eliminatedOf r c w).length := by
  unfold placeStage2
  apply assignSeq_map _ _ _ (eliminatedOf_nodup r c w)
  intro i hi
  have := ((eliminatedOf_mem r c w i).mp hi).1
  rw [placeStage1_length]
  unfold MAX_FIGHTERS at hN16
  omega

theorem placeStage2_not_mem (r : Rumble) (c : RumbleCombatState) (w i : Nat)
    (h : i ∉ eliminatedOf r c w) :
    (placeStage2 r c w).1.getD i 0 = (placeStage1 r c w).1.getD i 0 := by
  unfold placeStage2
  exact assignSeq_getD_not_mem _ _ _ _ h

theorem placeStage2_mem_ge (r : Rumble) (c : RumbleCombatState) (w i : Nat)
    (hN16 : r.fighter_count ≤ MAX_FIGHTERS) (h : i ∈ eliminatedOf r c w) :
    (placeStage1 r c w).2 ≤ (placeStage2 r c w).1.getD i 0 := by
  have hmem : (placeStage2 r c w).1.getD i 0 ∈
      List.range' (placeStage1 r c w).2 (eliminatedOf r c w).length := by
    rw [← placeStage2_map r c w hN16]
    exact List.mem_map_of_mem _ h
  exact (List.mem_range'_1.mp hmem).1

theorem range'_glue (a m n : Nat) :
    List.range' a m ++ List.range' (a + m) n = List.range' a (m + n) := by
  have h := List.range'_append a m n 1
  rw [Nat.add_comm m n]
  simpa using h

theorem leftoverOf_mem (r : Rumble) (c : RumbleCombatState) (w i : Nat) :
    i ∈ leftoverOf r c w ↔
      (i < r.fighter_count ∧ (placeStage2 r c w).1.getD i 0 = 0) := by
  unfold leftoverOf
  rw [List.mem_filter]
  simp [List.mem_range]

theorem leftoverOf_nodup (r : Rumble) (c : RumbleCombatState) (w : Nat) :
    (leftoverOf r c w).Nodup :=
  (List.nodup_range r.fighter_count).filter _

theorem finalizePlacements_eq (r : Rumble) (c : RumbleCombatState) (w : Nat) :
    finalizePlacements r c w =
      (assignSeq (placeStage2 r c w).1 (placeStage2 r c w).2 (leftoverOf r c w)).1 := by
  unfold finalizePlacements leftoverOf
  rw [fillZeros_eq _ _ _ (List.nodup_range r.fighter_count)]

theorem w_not_mem_survivors (r : Rumble) (c : RumbleCombatState) (w : Nat) :
    w ∉ survivorsOf r c w :=
  fun h => ((survivorsOf_mem r c w w).mp h).2.1 rfl

theorem w_not_mem_elim (r : Rumble) (c : RumbleCombatState) (w : Nat)
    (hw16 : w < MAX_FIGHTERS) : w ∉ eliminatedOf r c w := by
  intro h
  have h2 := ((eliminatedOf_mem r c w w).mp h).2.1
  rw [placeStage1_getD_w r c w hw16] at h2
  exact one_ne_zero h2

theorem placeStage2_getD_w (r : Rumble) (c : RumbleCombatState) (w : Nat)
    (hw16 : w < MAX_FIGHTERS) : (placeStage2 r c w).1.getD w 0 = 1 := by
  rw [placeStage2_not_mem r c w w (w_not_mem_elim r c w hw16),
    placeStage1_getD_w r c w hw16]

theorem w_not_mem_leftover (r : Rumble) (c : RumbleCombatState) (w : Nat)
    (hw16 : w < MAX_FIGHTERS) : w ∉ leftoverOf r c w := by
  intro h
  have h2 := ((leftoverOf_mem r c w w).mp h).2
  rw [placeStage2_getD_w r c w hw16] at h2
  exact one_ne_zero h2

theorem survivors_not_mem_elim (r : Rumble) (c : RumbleCombatState) (w i : Nat)
    (hN16 : r.fighter_count ≤ MAX_FIGHTERS) (hi : i ∈ survivorsOf r c w) :
    i ∉ eliminatedOf r c w := by
  intro hie
  have h2 := ((eliminatedOf_mem r c w i).mp hie).2.1
  have h1 := placeStage1_mem_ge r c w i hN16 hi
  omega

theorem placeStage2_on_survivors (r : Rumble) (c : RumbleCombatState) (w i : Nat)
    (hN16 : r.fighter_count ≤ MAX_FIGHTERS) (hi : i ∈ survivorsOf r c w) :
    (placeStage2 r c w).1.getD i 0 = (placeStage1 r c w).1.getD i 0 :=
  placeStage2_not_mem r c w i (survivors_not_mem_elim r c w i hN16 hi)

theorem survivors_not_mem_leftover (r : Rumble) (c : RumbleCombatState) (w i : Nat)
    (hN16 : r.fighter_count ≤ MAX_FIGHTERS) (hi : i ∈ survivorsOf r c w) :
    i ∉ leftoverOf r c w := by
  intro hilz
  have h2 := ((leftoverOf_mem r c w i).mp hilz).2
  rw [placeStage2_on_survivors r c w i hN16 hi] at h2
  have h1 := placeStage1_mem_ge r c w i hN16 hi
  omega

theorem elim_not_mem_leftover (r : Rumble) (c : RumbleCombatState) (w i : Nat)
    (hN16 : r.fighter_count ≤ MAX_FIGHTERS) (hi : i ∈ eliminatedOf r c w) :
    i ∉ leftoverOf r c w := by
  intro hilz
  have h2 := ((leftoverOf_mem r c w i).mp hilz).2
  have h1 := placeStage2_mem_ge r c w i hN16 hi
  have h3 : 2 ≤ (placeStage1 r c w).2 := by rw [placeStage1_snd]; omega
  omega

theorem placementOrder_perm (r : Rumble) (c : RumbleCombatState) (w : Nat)
    (hN16 : r.fighter_count ≤ MAX_FIGHTERS) (hw : w < r.fighter_count) :
    (placementOrder r c w).Perm (List.range r.fighter_count) := by
  have hw16 : w < MAX_FIGHTERS := lt_of_lt_of_le hw hN16
  have hnodup : (placementOrder r c w).Nodup := by
    unfold placementOrder
    rw [List.nodup_cons]
    refine ⟨?_, ?_⟩
    · intro hmem
      rcases List.mem_append.mp hmem with h12 | hlz2
      · rcases List.mem_append.mp h12 with hs2 | he2
        · exact w_not_mem_survivors r c w hs2
        · exact w_not_mem_elim r c w hw16 he2
      · exact w_not_mem_leftover r c w hw16 hlz2
    · rw [List.nodup_append, List.nodup_append]
      refine ⟨⟨survivorsOf_nodup r c w, eliminatedOf_nodup r c w, ?_⟩,
        leftoverOf_nodup r c w, ?_⟩
      · intro a ha hae
        exact survivors_not_mem_elim r c w a hN16 ha hae
      · intro a ha halz
        rcases List.mem_append.mp ha with has | hae
        · exact survivors_not_mem_leftover r c w a hN16 has halz
        · exact elim_not_mem_leftover r c w a hN16 hae halz
  have hsub1 : placementOrder r c w ⊆ List.range r.fighter_count := by
    intro i hi
    rw [List.mem_range]
    rcases List.mem_cons.mp hi with rfl | hi2
    · exact hw
    rcases List.mem_append.mp hi2 with h12 | hilz
    · rcases List.mem_append.mp h12 with his | hie
      · exact ((survivorsOf_mem r c w i).mp his).1
      · exact ((eliminatedOf_mem r c w i).mp hie).1
    · exact ((leftoverOf_mem r c w i).mp hilz).1
  have hsub2 : List.range r.fighter_count ⊆ placementOrder r c w := by
    intro i hi
    have hiN := List.mem_range.mp hi
    unfold placementOrder
    by_cases hiw : i = w
    · exact hiw ▸ List.mem_cons_self _ _
    by_cases his : i ∈ survivorsOf r c w
    · exact List.mem_cons_of_mem _ (List.mem_append.mpr (Or.inl
        (List.mem_append.mpr (Or.inl his))))
    by_cases hie : i ∈ eliminatedOf r c w
    · exact List.mem_cons_of_mem _ (List.mem_append.mpr (Or.inl
        (List.mem_append.mpr (Or.inr hie))))
    · refine List.mem_cons_of_mem _ (List.mem_append.mpr (Or.inr ?_))
      rw [leftoverOf_mem]
      refine ⟨hiN, ?_⟩
      rw [placeStage2_not_mem r c w i hie, placeStage1_getD_other r c w i hiw his]
  exact (hnodup.subperm hsub1).antisymm ((List.nodup_range r.fighter_count).subperm hsub2)

theorem placementOrder_map (r : Rumble) (c : RumbleCombatState) (w : Nat)
    (hN16 : r.fighter_count ≤ MAX_FIGHTERS) (hw : w < r.fighter_count) :
    ((placementOrder r c w).map fun i => (finalizePlacements r c w).getD i 0) =
      List.range' 1 r.fighter_count := by
  have hw16 : w < MAX_FIGHTERS := lt_of_lt_of_le hw hN16
  have hf_w : (finalizePlacements r c w).getD w 0 = 1 := by
    rw [finalizePlacements_eq,
      assignSeq_getD_not_mem _ _ _ _ (w_not_mem_leftover r c w hw16),
      placeStage2_getD_w r c w hw16]
  have hf_s : ((survivorsOf r c w).map fun i => (finalizePlacements r c w).getD i 0) =
      List.range' 2 (survivorsOf r c w).length := by
    rw [List.map_congr_left (fun i hi => by
      rw [finalizePlacements_eq,
        assignSeq_getD_not_mem _ _ _ _ (survivors_not_mem_leftover r c w i hN16 hi),
        placeStage2_on_survivors r c w i hN16 hi])]
    exact placeStage1_map r c w hN16
  have hf_e : ((eliminatedOf r c w).map fun i => (finalizePlacements r c w).getD i 0) =
      List.range' (placeStage1 r c w).2 (eliminatedOf r c w).length := by
    rw [List.map_congr_left (fun i hi => by
      rw [finalizePlacements_eq,
        assignSeq_getD_not_mem _ _ _ _ (elim_not_mem_leftover r c w i hN16 hi)])]
    exact placeStage2_map r c w hN16
  have hf_lz : ((leftoverOf r c w).map fun i => (finalizePlacements r c w).getD i 0) =
      List.range' (placeStage2 r c w).2 (leftoverOf r c w).length := by
    rw [List.map_congr_left (fun i _ => by rw [finalizePlacements_eq])]
    apply assignSeq_map _ _ _ (leftoverOf_nodup r c w)
    intro i hi
    rw [placeStage2_length]
    have hiN := ((leftoverOf_mem r c w i).mp hi).1
    unfold MAX_FIGHTERS at hN16
    omega
  have hlen : (placementOrder r c w).length = r.fighter_count := by
    rw [(placementOrder_perm r c w hN16 hw).length_eq, List.length_range]
  unfold placementOrder at hlen ⊢
  rw [List.map_cons, List.map_append, List.map_append, hf_s, hf_e, hf_lz, hf_w,
    placeStage2_snd, placeStage1_snd]
  rw [List.length_cons, List.length_append, List.length_append] at hlen
  rw [range'_glue 2 (survivorsOf r c w).length (eliminatedOf r c w).length]
  have hassoc : 2 + (survivorsOf r c w).length + (eliminatedOf r c w).length =
      2 + ((survivorsOf r c w).length + (eliminatedOf r c w).length) := by omega
  rw [hassoc, range'_glue 2 ((survivorsOf r c w).length + (eliminatedOf r c w).length)
    (leftoverOf r c w).length]
  have hN1 : r.fighter_count =
      ((survivorsOf r c w).length + (eliminatedOf r c w).length +
        (leftoverOf r c w).length) + 1 := by omega
  rw [hN1, List.range'_succ]

theorem winnerSelection_lt (r : Rumble) (c : RumbleCombatState) (w : Nat)
    (c2 : RumbleCombatState)
    (hwin : c.winner_index = 255 ∨ c.winner_index < r.fighter_count)
    (h : winnerSelection r c = .ok (w, c2)) : w < r.fighter_count := by
  unfold winnerSelection at h
  split_ifs at h with h255 hemp
  · cases h
    rcases hwin with ha | hb
    · exact absurd ha h255
    · exact hb
  · rcases hsorted : sortBy (survivorOrderLe r c) (List.range r.fighter_count) with
      _ | ⟨w0, tl⟩
    · rw [hsorted] at h
      exact absurd h (by simp)
    · have hmem : w0 ∈ sortBy (survivorOrderLe r c) (List.range r.fighter_count) := by
        rw [hsorted]; exact List.mem_cons_self w0 tl
      rw [hsorted] at h
      dsimp only at h
      cases h
      rw [sortBy_mem] at hmem
      exact List.mem_range.mp hmem
  · rcases hsorted : sortBy (survivorOrderLe r c)
        (aliveIndices { c with fighter_count := r.fighter_count }) with _ | ⟨w0, tl⟩
    · rw [hsorted] at h
      exact absurd h (by simp)
    · have hmem : w0 ∈ sortBy (survivorOrderLe r c)
          (aliveIndices { c with fighter_count := r.fighter_count }) := by
        rw [hsorted]; exact List.mem_cons_self w0 tl
      rw [hsorted] at h
      dsimp only at h
      cases h
      rw [sortBy_mem] at hmem
      unfold aliveIndices at hmem
      have hm2 := List.mem_filter.mp hmem
      exact List.mem_range.mp hm2.1

/-- C2: a successful `finalize_rumble` on a well-formed contest (2..16
fighters, winner slot either still the 255 sentinel or in range, as the
combat-state data model guarantees) whose combat state satisfies the
elimination-rank invariant produces placements whose first N entries are a
permutation of 1..N, with exactly one slot — the recorded winner — holding
placement 1. -/
theorem finalize_placements_permutation (r : Rumble) (c : RumbleCombatState)
    (slot : Nat) (now : Int) (r1 : Rumble) (c1 : RumbleCombatState)
    (hn2 : 2 ≤ r.fighter_count) (hN16 : r.fighter_count ≤ MAX_FIGHTERS)
    (hwin : c.winner_index = 255 ∨ c.winner_index < r.fighter_count)
    (hinv : elimInvariant c)
    (h : finalize_rumble r c slot now = .ok (r1, c1)) :
    (((List.range r.fighter_count).map fun i => r1.placements.getD i 0).Perm
      (List.range' 1 r.fighter_count)) ∧
    r1.winner_index < r.fighter_count ∧
    r1.placements.getD r1.winner_index 0 = 1 ∧
    (∀ i, i < r.fighter_count → r1.placements.getD i 0 = 1 → i = r1.winner_index) := by
  have hmain : ∃ w, w < r.fighter_count ∧ ∃ c2,
      r1 = { r with
             placements := finalizePlacements r c2 w,
             winner_index := w,
             state := RumbleState.Payout,
             completed_at := now } := by
    unfold finalize_rumble at h
    split_ifs at h with h1 h2 h3 h4 h5
    rcases hws : winnerSelection r c with e | wc
    · rw [hws] at h
      exact absurd h (by simp)
    · obtain ⟨w, c2⟩ := wc
      rw [hws] at h
      dsimp only at h
      cases h
      exact ⟨w, winnerSelection_lt r c w c1 hwin hws, c1, rfl⟩
  obtain ⟨w, hwlt, c2, hr1⟩ := hmain
  have hspec1 := placementOrder_perm r c2 w hN16 hwlt
  have hspec2 := placementOrder_map r c2 w hN16 hwlt
  have hw16 : w < MAX_FIGHTERS := lt_of_lt_of_le hwlt hN16
  have hwinidx : r1.winner_index = w := by rw [hr1]
  have hplac : r1.placements = finalizePlacements r c2 w := by rw [hr1]
  refine ⟨?_, ?_, ?_, ?_⟩
  · rw [hplac]
    have hperm2 := hspec1.symm.map fun i => (finalizePlacements r c2 w).getD i 0
    rw [hspec2] at hperm2
    exact hperm2
  · rw [hwinidx]; exact hwlt
  · rw [hwinidx, hplac, finalizePlacements_eq,
      assignSeq_getD_not_mem _ _ _ _ (w_not_mem_leftover r c2 w hw16),
      placeStage2_getD_w r c2 w hw16]
  · intro i hiN hfi
    rw [hwinidx]
    rw [hplac] at hfi
    have hiP : i ∈ placementOrder r c2 w :=
      hspec1.mem_iff.mpr (List.mem_range.mpr hiN)
    rcases List.mem_cons.mp hiP with rfl | hi2
    · rfl
    · exfalso
      have hmem2 : (finalizePlacements r c2 w).getD i 0 ∈
          ((survivorsOf r c2 w ++ eliminatedOf r c2 w ++ leftoverOf r c2 w).map
            fun i => (finalizePlacements r c2 w).getD i 0) :=
        List.mem_map_of_mem _ hi2
      have hrest : ((survivorsOf r c2 w ++ eliminatedOf r c2 w ++ leftoverOf r c2 w).map
          fun i => (finalizePlacements r c2 w).getD i 0) =
          List.range' 2 (r.fighter_count - 1) := by
        have hcons := hspec2
        unfold placementOrder at hcons
        rw [List.map_cons] at hcons
        have hN1 : r.fighter_count = (r.fighter_count - 1) + 1 := by omega
        rw [hN1, List.range'_succ] at hcons
        exact (List.cons.injEq _ _ _ _).mp hcons |>.2
      rw [hrest] at hmem2
      have := (List.mem_range'_1.mp hmem2).1
      rw [hfi] at this
      omega

/-- Witness for C2: finalizing the 4-fighter combat `wCombatFinal` yields
placements 3/4/1/2 — a permutation of 1..4 with the winner (slot 2) alone at
placement 1. -/
theorem finalize_placements_permutation_witness :
    (2 ≤ wRumbleFinal.fighter_count ∧ wRumbleFinal.fighter_count ≤ MAX_FIGHTERS ∧
     (wCombatFinal.winner_index = 255 ∨
      wCombatFinal.winner_index < wRumbleFinal.fighter_count) ∧
     elimInvariant wCombatFinal ∧
     finalize_rumble wRumbleFinal wCombatFinal 30 99 =
       .ok (wRumbleFinalized, wCombatFinal)) ∧
    ((((List.range wRumbleFinal.fighter_count).map
        fun i => wRumbleFinalized.placements.getD i 0).Perm
      (List.range' 1 wRumbleFinal.fighter_count)) ∧
     wRumbleFinalized.winner_index < wRumbleFinal.fighter_count ∧
     wRumbleFinalized.placements.getD wRumbleFinalized.winner_index 0 = 1 ∧
     (∀ i, i < wRumbleFinal.fighter_count →
       wRumbleFinalized.placements.getD i 0 = 1 → i = wRumbleFinalized.winner_index)) :=
  ⟨⟨by decide, by decide, by decide, by decide, rfl⟩,
   finalize_placements_permutation wRumbleFinal wCombatFinal 30 99 wRumbleFinalized
     wCombatFinal (by decide) (by decide) (by decide) (by decide) rfl⟩

-- ---------------------------------------------------------------------------
-- C7/C8: the elimination-rank invariant of the turn resolvers, and the
-- validation performed by the hybrid operator path.
-- ---------------------------------------------------------------------------

theorem getD_set_true (l : List Bool) (j : Nat) : (l.set j true).getD j true = true := by
  rcases Nat.lt_or_ge j l.length with hj | hj
  · exact getD_set_self _ _ _ _ (by simpa using hj)
  · have hn : (l.set j true)[j]? = none := List.getElem?_eq_none (by simpa using hj)
    simp [List.getD_eq_getElem?_getD, hn]

theorem seen_set_false_iff (seen : List Bool) (a b i : Nat) :
    ((seen.set a true).set b true).getD i true = false ↔
      (seen.getD i true = false ∧ i ≠ a ∧ i ≠ b) := by
  by_cases hib : i = b
  · subst hib
    rw [getD_set_true]
    simp
  · rw [getD_set_ne _ _ _ (fun hh => hib hh.symm)]
    by_cases hia : i = a
    · subst hia
      rw [getD_set_true]
      simp
    · rw [getD_set_ne _ _ _ (fun hh => hia hh.symm)]
      simp [hia, hib]

theorem pairsOf_cons (dr : DuelResult) (rest : List DuelResult) :
    pairsOf (dr :: rest) = dr.fighter_a_idx :: dr.fighter_b_idx :: pairsOf rest := rfl

theorem pairsOf_length : ∀ l : List DuelResult, (pairsOf l).length = 2 * l.length
  | [] => rfl
  | dr :: rest => by
    rw [pairsOf_cons]
    simp [pairsOf_length rest]
    omega

theorem pairsOf_mem {x : Nat} : ∀ {l : List DuelResult}, x ∈ pairsOf l →
    ∃ dr ∈ l, x = dr.fighter_a_idx ∨ x = dr.fighter_b_idx := by
  intro l
  induction l with
  | nil => intro h; exact absurd h (List.not_mem_nil x)
  | cons dr rest ih =>
    intro h
    rw [pairsOf_cons] at h
    rcases List.mem_cons.mp h with rfl | h2
    · exact ⟨dr, List.mem_cons_self _ _, Or.inl rfl⟩
    · rcases List.mem_cons.mp h2 with rfl | h3
      · exact ⟨dr, List.mem_cons_self _ _, Or.inr rfl⟩
      · obtain ⟨dr2, hd2, hx⟩ := ih h3
        exact ⟨dr2, List.mem_cons_of_mem _ hd2, hx⟩

theorem applyDuelDamage_fields (c : RumbleCombatState) (ia ib da db ma mb : Nat) :
    (applyDuelDamage c ia ib da db ma mb).elimination_rank = c.elimination_rank ∧
    (applyDuelDamage c ia ib da db ma mb).remaining_fighters = c.remaining_fighters ∧
    (applyDuelDamage c ia ib da db ma mb).fighter_count = c.fighter_count ∧
    (applyDuelDamage c ia ib da db ma mb).winner_index = c.winner_index ∧
    (applyDuelDamage c ia ib da db ma mb).turn_resolved = c.turn_resolved ∧
    (∀ i, i ≠ ia → i ≠ ib →
      (applyDuelDamage c ia ib da db ma mb).hp.getD i 0 = c.hp.getD i 0) ∧
    (∀ i, i ≠ ia → i ≠ ib →
      (applyDuelDamage c ia ib da db ma mb).meter.getD i 0 = c.meter.getD i 0) := by
  refine ⟨rfl, rfl, rfl, rfl, rfl, ?_, ?_⟩ <;>
  · intro i hia hib
    dsimp only [applyDuelDamage]
    rw [getD_set_ne _ _ _ (fun h => hib h.symm), getD_set_ne _ _ _ (fun h => hia h.symm)]

theorem duelElims_super {c1 : RumbleCombatState} {elim : List Nat} {a b x : Nat}
    (hx : x ∈ elim) : x ∈ duelElims c1 elim a b := by
  unfold duelElims
  exact List.mem_append_left _ (List.mem_append_left _ hx)

theorem duelElims_sub {c1 : RumbleCombatState} {elim : List Nat} {a b x : Nat}
    (hx : x ∈ duelElims c1 elim a b) : x ∈ elim ∨ x = a ∨ x = b := by
  unfold duelElims at hx
  rcases List.mem_append.mp hx with h | h
  · rcases List.mem_append.mp h with h2 | h2
    · exact Or.inl h2
    · split_ifs at h2
      · exact Or.inr (Or.inl (by simpa using h2))
      · simp at h2
  · split_ifs at h
    · exact Or.inr (Or.inr (by simpa using h))
    · simp at h

theorem duelElims_dead_a {c1 : RumbleCombatState} {elim : List Nat} {a b : Nat}
    (h1 : c1.hp.getD a 0 = 0) (h2 : c1.elimination_rank.getD a 0 = 0) :
    a ∈ duelElims c1 elim a b := by
  unfold duelElims
  refine List.mem_append_left _ (List.mem_append_right _ ?_)
  rw [if_pos ⟨h1, h2⟩]
  exact List.mem_singleton_self a

theorem duelElims_dead_b {c1 : RumbleCombatState} {elim : List Nat} {a b : Nat}
    (h1 : c1.hp.getD b 0 = 0) (h2 : c1.elimination_rank.getD b 0 = 0) :
    b ∈ duelElims c1 elim a b := by
  unfold duelElims
  refine List.mem_append_right _ ?_
  rw [if_pos ⟨h1, h2⟩]
  exact List.mem_singleton_self b

theorem duelStep_ok {sha : List Nat → List Nat} {rev : Pubkey → Option Nat}
    {r : Rumble} {turn : Nat} {c : RumbleCombatState} {ia ib : Nat}
    {c1 : RumbleCombatState} (h : duelStep sha rev r turn c ia ib = .ok c1) :
    c1.elimination_rank = c.elimination_rank ∧
    c1.remaining_fighters = c.remaining_fighters ∧
    c1.fighter_count = c.fighter_count ∧
    c1.winner_index = c.winner_index ∧
    c1.turn_resolved = c.turn_resolved ∧
    (∀ i, i ≠ ia → i ≠ ib → c1.hp.getD i 0 = c.hp.getD i 0) := by
  unfold duelStep at h
  split_ifs at h
  injection h with h2
  subst h2
  obtain ⟨f1, f2, f3, f4, f5, f6, _⟩ := applyDuelDamage_fields c ia ib
    (resolve_duel (moveFor sha rev r turn c ia) (moveFor sha rev r turn c ib)
      (c.meter.getD ia 0) (c.meter.getD ib 0)).1
    (resolve_duel (moveFor sha rev r turn c ia) (moveFor sha rev r turn c ib)
      (c.meter.getD ia 0) (c.meter.getD ib 0)).2.1
    (resolve_duel (moveFor sha rev r turn c ia) (moveFor sha rev r turn c ib)
      (c.meter.getD ia 0) (c.meter.getD ib 0)).2.2.1
    (resolve_duel (moveFor sha rev r turn c ia) (moveFor sha rev r turn c ib)
      (c.meter.getD ia 0) (c.meter.getD ib 0)).2.2.2
  exact ⟨f1, f2, f3, f4, f5, f6⟩

theorem postedStep_ok {c : RumbleCombatState} {seen : List Bool} {dr : DuelResult}
    {c1 : RumbleCombatState} {seen1 : List Bool}
    (h : postedStep c seen dr = .ok (c1, seen1)) :
    dr.fighter_a_idx < c.fighter_count ∧ dr.fighter_b_idx < c.fighter_count ∧
    dr.fighter_a_idx ≠ dr.fighter_b_idx ∧
    seen.getD dr.fighter_a_idx true = false ∧
    seen.getD dr.fighter_b_idx true = false ∧
    0 < c.hp.getD dr.fighter_a_idx 0 ∧
    c.elimination_rank.getD dr.fighter_a_idx 0 = 0 ∧
    0 < c.hp.getD dr.fighter_b_idx 0 ∧
    c.elimination_rank.getD dr.fighter_b_idx 0 = 0 ∧
    is_valid_move_code dr.move_a ∧ is_valid_move_code dr.move_b ∧
    dr.damage_to_a = (resolve_duel dr.move_a dr.move_b
      (c.meter.getD dr.fighter_a_idx 0) (c.meter.getD dr.fighter_b_idx 0)).1 ∧
    dr.damage_to_b = (resolve_duel dr.move_a dr.move_b
      (c.meter.getD dr.fighter_a_idx 0) (c.meter.getD dr.fighter_b_idx 0)).2.1 ∧
    c1 = applyDuelDamage c dr.fighter_a_idx dr.fighter_b_idx
      dr.damage_to_a dr.damage_to_b
      (resolve_duel dr.move_a dr.move_b
        (c.meter.getD dr.fighter_a_idx 0) (c.meter.getD dr.fighter_b_idx 0)).2.2.1
      (resolve_duel dr.move_a dr.move_b
        (c.meter.getD dr.fighter_a_idx 0) (c.meter.getD dr.fighter_b_idx 0)).2.2.2 ∧
    seen1 = (seen.set dr.fighter_a_idx true).set dr.fighter_b_idx true := by
  unfold postedStep at h
  split_ifs at h with h1 h2 h3 h4 h5 h6 h7 h8 h9
  all_goals try exact Except.noConfusion h
  injection h with h10
  rw [Prod.mk.injEq] at h10
  exact ⟨h1.1, h1.2, h2, h3.1, h3.2, h4.1, h4.2, h5.1, h5.2, h6, h7, h8.1, h8.2,
    h10.1.symm, h10.2.symm⟩

theorem grantMeter_fields (idxs : List Nat) : ∀ c : RumbleCombatState,
    (grantMeter c idxs).hp = c.hp ∧
    (grantMeter c idxs).elimination_rank = c.elimination_rank ∧
    (grantMeter c idxs).remaining_fighters = c.remaining_fighters ∧
    (grantMeter c idxs).fighter_count = c.fighter_count ∧
    (grantMeter c idxs).winner_index = c.winner_index ∧
    (grantMeter c idxs).turn_resolved = c.turn_resolved := by
  induction idxs with
  | nil => intro c; exact ⟨rfl, rfl, rfl, rfl, rfl, rfl⟩
  | cons i rest ih =>
    intro c
    have e : grantMeter c (i :: rest) =
        grantMeter (if 0 < c.hp.getD i 0 then
          { c with meter := (c.meter.set i
              (Nat.min (Nat.min (c.meter.getD i 0 + METER_PER_TURN) 255)
                SPECIAL_METER_COST)) }
          else c) rest := rfl
    rw [e]
    by_cases hc : 0 < c.hp.getD i 0
    · rw [if_pos hc]
      exact ih _
    · rw [if_neg hc]
      exact ih _

theorem byeGrant_fields (c : RumbleCombatState) (sorted : List Nat) :
    (byeGrant c sorted).hp = c.hp ∧
    (byeGrant c sorted).elimination_rank = c.elimination_rank ∧
    (byeGrant c sorted).remaining_fighters = c.remaining_fighters ∧
    (byeGrant c sorted).fighter_count = c.fighter_count ∧
    (byeGrant c sorted).winner_index = c.winner_index ∧
    (byeGrant c sorted).turn_resolved = c.turn_resolved := by
  unfold byeGrant
  split_ifs
  · exact ⟨rfl, rfl, rfl, rfl, rfl, rfl⟩
  · exact ⟨rfl, rfl, rfl, rfl, rfl, rfl⟩

theorem recordWinner_fields (c4 : RumbleCombatState) :
    (finishTurn c4).hp = c4.hp ∧
    (finishTurn c4).elimination_rank = c4.elimination_rank ∧
    (finishTurn c4).remaining_fighters = c4.remaining_fighters ∧
    (finishTurn c4).fighter_count = c4.fighter_count := by
  unfold finishTurn recordWinner
  split_ifs
  · cases hh : (aliveIndices c4).head? <;> exact ⟨rfl, rfl, rfl, rfl⟩
  · exact ⟨rfl, rfl, rfl, rfl⟩

theorem rankCount_set (N : Nat) (rank : List Nat) (idx v : Nat)
    (hidx : idx < N) (hlen : idx < rank.length)
    (hrank0 : rank.getD idx 0 = 0) (hv : v ≠ 0) :
    ((Finset.range N).filter (fun i => (rank.set idx v).getD i 0 ≠ 0)).card
      = ((Finset.range N).filter (fun i => rank.getD i 0 ≠ 0)).card + 1 := by
  have hset : (Finset.range N).filter (fun i => (rank.set idx v).getD i 0 ≠ 0)
      = insert idx ((Finset.range N).filter (fun i => rank.getD i 0 ≠ 0)) := by
    ext i
    simp only [Finset.mem_filter, Finset.mem_insert, Finset.mem_range]
    constructor
    · rintro ⟨hiN, hne⟩
      by_cases hii : i = idx
      · exact Or.inl hii
      · right
        refine ⟨hiN, ?_⟩
        rwa [getD_set_ne _ _ _ (fun he => hii he.symm)] at hne
    · rintro (rfl | ⟨hiN, hne⟩)
      · exact ⟨hidx, by rw [getD_set_self _ _ _ _ hlen]; exact hv⟩
      · by_cases hii : i = idx
        · subst hii
          exact ⟨hiN, by rw [getD_set_self _ _ _ _ hlen]; exact hv⟩
        · refine ⟨hiN, ?_⟩
          rw [getD_set_ne _ _ _ (fun he => hii he.symm)]
          exact hne
  rw [hset, Finset.card_insert_of_not_mem]
  intro hmem
  rw [Finset.mem_filter] at hmem
  exact hmem.2 hrank0

theorem elimInvariant_transfer {c cb : RumbleCombatState}
    (hrank : ∀ i, cb.elimination_rank.getD i 0 = c.elimination_rank.getD i 0)
    (hrem : cb.remaining_fighters = c.remaining_fighters)
    (hfc : cb.fighter_count = c.fighter_count)
    (h : elimInvariant c) : elimInvariant cb := by
  unfold elimInvariant at h ⊢
  rw [hrem, hfc, Finset.filter_congr (fun x _ => by rw [hrank x])]
  exact h

/-- The elimination loop, run on a list of in-range slots from a state
satisfying the counting invariant, preserves the invariant, never overwrites a
nonzero rank, ranks every listed slot, and assigns fresh ranks strictly above
`fighter_count - remaining_fighters`, pairwise distinct. -/
theorem applyEliminations_spec :
    ∀ (elims : List Nat) (c c2 : RumbleCombatState),
    applyEliminations c elims = .ok c2 →
    c.fighter_count ≤ c.elimination_rank.length →
    elimInvariant c →
    (∀ i ∈ elims, i < c.fighter_count) →
    (elimInvariant c2 ∧
     c2.fighter_count = c.fighter_count ∧
     c2.hp = c.hp ∧
     c2.elimination_rank.length = c.elimination_rank.length ∧
     (∀ i, c.elimination_rank.getD i 0 ≠ 0 →
        c2.elimination_rank.getD i 0 = c.elimination_rank.getD i 0) ∧
     (∀ i ∈ elims, c2.elimination_rank.getD i 0 ≠ 0) ∧
     (∀ i, c2.elimination_rank.getD i 0 ≠ c.elimination_rank.getD i 0 →
        (c.elimination_rank.getD i 0 = 0 ∧
         c.fighter_count - c.remaining_fighters < c2.elimination_rank.getD i 0)) ∧
     (∀ i j, i ≠ j → c.elimination_rank.getD i 0 = 0 → c.elimination_rank.getD j 0 = 0 →
        c2.elimination_rank.getD i 0 ≠ 0 → c2.elimination_rank.getD j 0 ≠ 0 →
        c2.elimination_rank.getD i 0 ≠ c2.elimination_rank.getD j 0)) := by
  intro elims
  induction elims with
  | nil =>
    intro c c2 h hlenN hinv hsub
    injection h with h2
    subst h2
    exact ⟨hinv, rfl, rfl, rfl, fun i _ => rfl,
      fun i hi => absurd hi (List.not_mem_nil i),
      fun i hne => absurd rfl hne,
      fun i j _ h0i _ hi2 _ => absurd h0i hi2⟩
  | cons idx rest ih =>
    intro c c2 h hlenN hinv hsub
    unfold applyEliminations at h
    by_cases hr : 0 < c.elimination_rank.getD idx 0
    · rw [if_pos hr] at h
      obtain ⟨p1, p2, p3, p4, p5, p6, p7, p8⟩ :=
        ih c c2 h hlenN hinv (fun i hi => hsub i (List.mem_cons_of_mem _ hi))
      refine ⟨p1, p2, p3, p4, p5, ?_, p7, p8⟩
      intro i hi
      rcases List.mem_cons.mp hi with rfl | hi2
      · have hne : c.elimination_rank.getD i 0 ≠ 0 := Nat.pos_iff_ne_zero.mp hr
        rw [p5 i hne]
        exact hne
      · exact p6 i hi2
    · rw [if_neg hr] at h
      split_ifs at h with hle hlt hrem
      have hidxN : idx < c.fighter_count := hsub idx (List.mem_cons_self idx rest)
      have hlenidx : idx < c.elimination_rank.length := lt_of_lt_of_le hidxN hlenN
      have hrank0 : c.elimination_rank.getD idx 0 = 0 := Nat.eq_zero_of_not_pos hr
      have hinv1 : elimInvariant
          ({ c with
             elimination_rank := c.elimination_rank.set idx
               (c.fighter_count - c.remaining_fighters + 1),
             remaining_fighters := c.remaining_fighters - 1 } : RumbleCombatState) := by
        unfold elimInvariant at hinv ⊢
        show c.remaining_fighters - 1 +
            ((Finset.range c.fighter_count).filter
              (fun i => (c.elimination_rank.set idx
                (c.fighter_count - c.remaining_fighters + 1)).getD i 0 ≠ 0)).card
          = c.fighter_count
        rw [rankCount_set c.fighter_count c.elimination_rank idx
          (c.fighter_count - c.remaining_fighters + 1) hidxN hlenidx hrank0
          (Nat.succ_ne_zero _)]
        omega
      have hlen1 : (({ c with
             elimination_rank := c.elimination_rank.set idx
               (c.fighter_count - c.remaining_fighters + 1),
             remaining_fighters := c.remaining_fighters - 1 } :
            RumbleCombatState)).fighter_count ≤
          (({ c with
             elimination_rank := c.elimination_rank.set idx
               (c.fighter_count - c.remaining_fighters + 1),
             remaining_fighters := c.remaining_fighters - 1 } :
            RumbleCombatState)).elimination_rank.length := by
        show c.fighter_count ≤ (c.elimination_rank.set idx _).length
        rw [List.length_set]
        exact hlenN
      obtain ⟨p1, p2, p3, p4, p5, p6, p7, p8⟩ :=
        ih _ c2 h hlen1 hinv1 (fun i hi => hsub i (List.mem_cons_of_mem _ hi))
      have hr1self : (c.elimination_rank.set idx
          (c.fighter_count - c.remaining_fighters + 1)).getD idx 0
          = c.fighter_count - c.remaining_fighters + 1 :=
        getD_set_self _ _ _ _ hlenidx
      have hr1ne : ∀ i, i ≠ idx → (c.elimination_rank.set idx
          (c.fighter_count - c.remaining_fighters + 1)).getD i 0
          = c.elimination_rank.getD i 0 :=
        fun i hi => getD_set_ne _ _ _ (fun he => hi he.symm)
      have hvidx : c2.elimination_rank.getD idx 0
          = c.fighter_count - c.remaining_fighters + 1 := by
        rw [p5 idx (by rw [hr1self]; exact Nat.succ_ne_zero _)]
        exact hr1self
      refine ⟨p1, p2, p3, ?_, ?_, ?_, ?_, ?_⟩
      · rw [p4]
        exact List.length_set _ _ _
      · intro i hi
        have hne : i ≠ idx := fun he => hi (he ▸ hrank0)
        rw [p5 i (by rw [hr1ne i hne]; exact hi)]
        exact hr1ne i hne
      · intro i hi
        rcases List.mem_cons.mp hi with rfl | hi2
        · rw [hvidx]
          exact Nat.succ_ne_zero _
        · exact p6 i hi2
      · intro i hchg
        by_cases hi : i = idx
        · subst hi
          refine ⟨hrank0, ?_⟩
          rw [hvidx]
          omega
        · have heq1 := hr1ne i hi
          by_cases hchg1 : c2.elimination_rank.getD i 0 = (c.elimination_rank.set idx
              (c.fighter_count - c.remaining_fighters + 1)).getD i 0
          · rw [hchg1, heq1] at hchg
            exact absurd rfl hchg
          · obtain ⟨q1, q2⟩ := p7 i hchg1
            refine ⟨by rw [← heq1]; exact q1, ?_⟩
            have q2b : c.fighter_count - (c.remaining_fighters - 1) <
                c2.elimination_rank.getD i 0 := q2
            omega
      · intro i j hij h0i h0j hni hnj
        by_cases hi : i = idx
        · have hjne : j ≠ idx := fun he => hij (hi.trans he.symm)
          have hj1 : (c.elimination_rank.set idx
              (c.fighter_count - c.remaining_fighters + 1)).getD j 0 = 0 := by
            rw [hr1ne j hjne]
            exact h0j
          have hne2 : c2.elimination_rank.getD j 0 ≠ (c.elimination_rank.set idx
              (c.fighter_count - c.remaining_fighters + 1)).getD j 0 := by
            rw [hj1]
            exact hnj
          have q2 := (p7 j hne2).2
          have q2b : c.fighter_count - (c.remaining_fighters - 1) <
              c2.elimination_rank.getD j 0 := q2
          rw [hi, hvidx]
          omega
        · by_cases hj : j = idx
          · have hi1 : (c.elimination_rank.set idx
                (c.fighter_count - c.remaining_fighters + 1)).getD i 0 = 0 := by
              rw [hr1ne i hi]
              exact h0i
            have hne2 : c2.elimination_rank.getD i 0 ≠ (c.elimination_rank.set idx
                (c.fighter_count - c.remaining_fighters + 1)).getD i 0 := by
              rw [hi1]
              exact hni
            have q2 := (p7 i hne2).2
            have q2b : c.fighter_count - (c.remaining_fighters - 1) <
                c2.elimination_rank.getD i 0 := q2
            rw [hj, hvidx]
            omega
          · refine p8 i j hij ?_ ?_ hni hnj
            · rw [hr1ne i hi]
              exact h0i
            · rw [hr1ne j hj]
              exact h0j

/-- The chunked duel loop of `resolve_turn` leaves ranks, the survivor count,
the winner and the resolved flag untouched, only grows the elimination queue
with fighters from its input list, and queues every fighter it kills. -/
theorem runDuels_spec (sha : List Nat → List Nat) (rev : Pubkey → Option Nat)
    (r : Rumble) (turn : Nat) :
    ∀ (n : Nat) (l : List Nat) (c : RumbleCombatState) (paired elim : List Nat)
      (out : RumbleCombatState × List Nat × List Nat),
      l.length ≤ n →
      runDuels sha rev r turn c l paired elim = .ok out →
      (out.1.elimination_rank = c.elimination_rank ∧
       out.1.remaining_fighters = c.remaining_fighters ∧
       out.1.fighter_count = c.fighter_count ∧
       out.1.winner_index = c.winner_index ∧
       out.1.turn_resolved = c.turn_resolved ∧
       (∀ x ∈ elim, x ∈ out.2.2) ∧
       (∀ x ∈ out.2.2, x ∈ elim ∨ x ∈ l) ∧
       (∀ i, out.1.hp.getD i 0 = 0 → c.hp.getD i 0 ≠ 0 →
         c.elimination_rank.getD i 0 = 0 → i ∈ out.2.2)) := by
  intro n
  induction n with
  | zero =>
    intro l c paired elim out hlen h
    have hl : l = [] := List.eq_nil_of_length_eq_zero (Nat.le_zero.mp hlen)
    subst hl
    injection h with h2
    subst h2
    exact ⟨rfl, rfl, rfl, rfl, rfl, fun x hx => hx, fun x hx => Or.inl hx,
      fun i h0 hne _ => absurd h0 hne⟩
  | succ n ih =>
    intro l c paired elim out hlen h
    rcases l with _ | ⟨a, _ | ⟨b, rest⟩⟩
    · injection h with h2
      subst h2
      exact ⟨rfl, rfl, rfl, rfl, rfl, fun x hx => hx, fun x hx => Or.inl hx,
        fun i h0 hne _ => absurd h0 hne⟩
    · injection h with h2
      subst h2
      exact ⟨rfl, rfl, rfl, rfl, rfl, fun x hx => hx, fun x hx => Or.inl hx,
        fun i h0 hne _ => absurd h0 hne⟩
    · have hstep : runDuels sha rev r turn c (a :: b :: rest) paired elim =
          match duelStep sha rev r turn c a b with
          | .error e => .error e
          | .ok c1 => runDuels sha rev r turn c1 rest (paired ++ [a, b])
              (duelElims c1 elim a b) := rfl
      rw [hstep] at h
      rcases hds : duelStep sha rev r turn c a b with e | c1
      · rw [hds] at h
        exact Except.noConfusion h
      · rw [hds] at h
        dsimp only at h
        obtain ⟨df1, df2, df3, df4, df5, df6⟩ := duelStep_ok hds
        have hrest : rest.length ≤ n := by
          simp only [List.length_cons] at hlen
          omega
        obtain ⟨p1, p2, p3, p4, p5, p6, p7, p8⟩ :=
          ih rest c1 (paired ++ [a, b]) (duelElims c1 elim a b) out hrest h
        refine ⟨p1.trans df1, p2.trans df2, p3.trans df3, p4.trans df4, p5.trans df5,
          ?_, ?_, ?_⟩
        · exact fun x hx => p6 x (duelElims_super hx)
        · intro x hx
          rcases p7 x hx with hx2 | hx2
          · rcases duelElims_sub hx2 with h3 | h3 | h3
            · exact Or.inl h3
            · exact Or.inr (by rw [h3]; exact List.mem_cons_self a _)
            · refine Or.inr ?_
              rw [h3]
              exact List.mem_cons_of_mem _ (List.mem_cons_self b _)
          · exact Or.inr (List.mem_cons_of_mem _ (List.mem_cons_of_mem _ hx2))
        · intro i h0 hne hr0
          by_cases h1 : c1.hp.getD i 0 = 0
          · have hiab : i = a ∨ i = b := by
              by_contra hcon
              push_neg at hcon
              exact hne (by rw [← df6 i hcon.1 hcon.2]; exact h1)
            have hrank1 : c1.elimination_rank.getD i 0 = 0 := by
              rw [df1]
              exact hr0
            rcases hiab with rfl | rfl
            · exact p6 _ (duelElims_dead_a h1 hrank1)
            · exact p6 _ (duelElims_dead_b h1 hrank1)
          · refine p8 i h0 h1 ?_
            rw [df1]
            exact hr0

/-- The validation loop of `post_turn_result`, run from a state whose unseen
fighters still carry the base state `c0`'s hp and meter: ranks, the survivor
count, the winner and the resolved flag stay at `c0`'s values; unseen slots
keep `c0`'s hp and meter; a slot ends unseen exactly when it entered unseen
and is not named by a pair; every accepted duel names fighters alive in `c0`,
carries valid moves, and carries exactly the damage recomputed by
`resolve_duel` from `c0`'s meters; the named slots are pairwise distinct and
entered unseen; and the elimination queue grows only with named slots, taking
in every fighter the loop kills. -/
theorem runPosted_spec (r : Rumble) (c0 : RumbleCombatState) :
    ∀ (l : List DuelResult) (c : RumbleCombatState) (seen : List Bool)
      (paired elim : List Nat)
      (out : RumbleCombatState × List Bool × List Nat × List Nat),
      runPosted r c seen l paired elim = .ok out →
      c.elimination_rank = c0.elimination_rank →
      c.remaining_fighters = c0.remaining_fighters →
      c.fighter_count = c0.fighter_count →
      c.winner_index = c0.winner_index →
      c.turn_resolved = c0.turn_resolved →
      (∀ i, seen.getD i true = false →
        c.hp.getD i 0 = c0.hp.getD i 0 ∧ c.meter.getD i 0 = c0.meter.getD i 0) →
      (out.1.elimination_rank = c0.elimination_rank ∧
       out.1.remaining_fighters = c0.remaining_fighters ∧
       out.1.fighter_count = c0.fighter_count ∧
       out.1.winner_index = c0.winner_index ∧
       out.1.turn_resolved = c0.turn_resolved ∧
       (∀ i, out.2.1.getD i true = false →
         out.1.hp.getD i 0 = c0.hp.getD i 0 ∧ out.1.meter.getD i 0 = c0.meter.getD i 0) ∧
       (∀ i, out.2.1.getD i true = false ↔
         (seen.getD i true = false ∧ i ∉ pairsOf l)) ∧
       (∀ dr ∈ l,
         dr.fighter_a_idx ∈ aliveIndices c0 ∧ dr.fighter_b_idx ∈ aliveIndices c0 ∧
         is_valid_move_code dr.move_a ∧ is_valid_move_code dr.move_b ∧
         dr.damage_to_a = (resolve_duel dr.move_a dr.move_b
           (c0.meter.getD dr.fighter_a_idx 0) (c0.meter.getD dr.fighter_b_idx 0)).1 ∧
         dr.damage_to_b = (resolve_duel dr.move_a dr.move_b
           (c0.meter.getD dr.fighter_a_idx 0) (c0.meter.getD dr.fighter_b_idx 0)).2.1) ∧
       (pairsOf l).Nodup ∧
       (∀ x ∈ pairsOf l, seen.getD x true = false) ∧
       (∀ x ∈ elim, x ∈ out.2.2.2) ∧
       (∀ x ∈ out.2.2.2, x ∈ elim ∨ x ∈ pairsOf l) ∧
       (∀ i, out.1.hp.getD i 0 = 0 → c.hp.getD i 0 ≠ 0 →
         c.elimination_rank.getD i 0 = 0 → i ∈ out.2.2.2)) := by
  intro l
  induction l with
  | nil =>
    intro c seen paired elim out h h1 h2 h3 h4 h5 h6
    injection h with h7
    subst h7
    exact ⟨h1, h2, h3, h4, h5, h6,
      fun i => ⟨fun hf => ⟨hf, List.not_mem_nil i⟩, fun hp => hp.1⟩,
      fun dr hdr => absurd hdr (List.not_mem_nil dr),
      List.nodup_nil,
      fun x hx => absurd hx (List.not_mem_nil x),
      fun x hx => hx,
      fun x hx => Or.inl hx,
      fun i hi0 hne _ => absurd hi0 hne⟩
  | cons dr rest ih =>
    intro c seen paired elim out h h1 h2 h3 h4 h5 h6
    have hstep : runPosted r c seen (dr :: rest) paired elim =
        match postedStep c seen dr with
        | .error e => .error e
        | .ok (c1, seen1) => runPosted r c1 seen1 rest
            (paired ++ [dr.fighter_a_idx, dr.fighter_b_idx])
            (duelElims c1 elim dr.fighter_a_idx dr.fighter_b_idx) := rfl
    rw [hstep] at h
    rcases hps : postedStep c seen dr with e | cs
    · rw [hps] at h
      exact Except.noConfusion h
    · obtain ⟨c1, seen1⟩ := cs
      rw [hps] at h
      dsimp only at h
      obtain ⟨q1, q2, q3, q4, q5, q6, q7, q8, q9, q10, q11, q12, q13, q14, q15⟩ :=
        postedStep_ok hps
      subst q14
      subst q15
      obtain ⟨f1, f2, f3, f4, f5, f6, f7⟩ := applyDuelDamage_fields c
        dr.fighter_a_idx dr.fighter_b_idx dr.damage_to_a dr.damage_to_b
        (resolve_duel dr.move_a dr.move_b
          (c.meter.getD dr.fighter_a_idx 0) (c.meter.getD dr.fighter_b_idx 0)).2.2.1
        (resolve_duel dr.move_a dr.move_b
          (c.meter.getD dr.fighter_a_idx 0) (c.meter.getD dr.fighter_b_idx 0)).2.2.2
      have h6a := (h6 _ q4).1
      have h6b := (h6 _ q5).1
      have h6am := (h6 _ q4).2
      have h6bm := (h6 _ q5).2
      have h6x : ∀ i, ((seen.set dr.fighter_a_idx true).set dr.fighter_b_idx
            true).getD i true = false →
          (applyDuelDamage c dr.fighter_a_idx dr.fighter_b_idx
            dr.damage_to_a dr.damage_to_b
            (resolve_duel dr.move_a dr.move_b
              (c.meter.getD dr.fighter_a_idx 0)
              (c.meter.getD dr.fighter_b_idx 0)).2.2.1
            (resolve_duel dr.move_a dr.move_b
              (c.meter.getD dr.fighter_a_idx 0)
              (c.meter.getD dr.fighter_b_idx 0)).2.2.2).hp.getD i 0
            = c0.hp.getD i 0 ∧
          (applyDuelDamage c dr.fighter_a_idx dr.fighter_b_idx
            dr.damage_to_a dr.damage_to_b
            (resolve_duel dr.move_a dr.move_b
              (c.meter.getD dr.fighter_a_idx 0)
              (c.meter.getD dr.fighter_b_idx 0)).2.2.1
            (resolve_duel dr.move_a dr.move_b
              (c.meter.getD dr.fighter_a_idx 0)
              (c.meter.getD dr.fighter_b_idx 0)).2.2.2).meter.getD i 0
            = c0.meter.getD i 0 := by
        intro i hi
        obtain ⟨hs0, hia, hib⟩ := (seen_set_false_iff seen _ _ i).mp hi
        exact ⟨(f6 i hia hib).trans (h6 i hs0).1, (f7 i hia hib).trans (h6 i hs0).2⟩
      obtain ⟨P1, P2, P3, P4, P5, P6, P7, P8, P9, P10, P11, P12, P13⟩ :=
        ih _ _ (paired ++ [dr.fighter_a_idx, dr.fighter_b_idx])
          (duelElims _ elim dr.fighter_a_idx dr.fighter_b_idx) out h
          (f1.trans h1) (f2.trans h2) (f3.trans h3) (f4.trans h4) (f5.trans h5) h6x
      have hseen1a : ((seen.set dr.fighter_a_idx true).set dr.fighter_b_idx
          true).getD dr.fighter_a_idx true = true := by
        rw [getD_set_ne _ _ _ (fun hh => q3 hh.symm)]
        exact getD_set_true seen dr.fighter_a_idx
      have hseen1b : ((seen.set dr.fighter_a_idx true).set dr.fighter_b_idx
          true).getD dr.fighter_b_idx true = true :=
        getD_set_true _ dr.fighter_b_idx
      have hanotrest : dr.fighter_a_idx ∉ pairsOf rest := by
        intro hmem
        have hx := P10 _ hmem
        rw [hseen1a] at hx
        exact Bool.noConfusion hx
      have hbnotrest : dr.fighter_b_idx ∉ pairsOf rest := by
        intro hmem
        have hx := P10 _ hmem
        rw [hseen1b] at hx
        exact Bool.noConfusion hx
      refine ⟨P1, P2, P3, P4, P5, P6, ?_, ?_, ?_, ?_, ?_, ?_, ?_⟩
      · intro i
        rw [P7 i, seen_set_false_iff, pairsOf_cons]
        simp only [List.mem_cons, not_or]
        tauto
      · intro dr2 hdr2
        rcases List.mem_cons.mp hdr2 with rfl | hdr3
        · have hafc : dr2.fighter_a_idx < c0.fighter_count := h3 ▸ q1
          have hbfc : dr2.fighter_b_idx < c0.fighter_count := h3 ▸ q2
          have hra : c0.elimination_rank.getD dr2.fighter_a_idx 0 = 0 := h1 ▸ q7
          have hrb : c0.elimination_rank.getD dr2.fighter_b_idx 0 = 0 := h1 ▸ q9
          have hha : 0 < c0.hp.getD dr2.fighter_a_idx 0 := h6a ▸ q6
          have hhb : 0 < c0.hp.getD dr2.fighter_b_idx 0 := h6b ▸ q8
          rw [h6am, h6bm] at q12 q13
          refine ⟨?_, ?_, q10, q11, q12, q13⟩
          · unfold aliveIndices
            rw [List.mem_filter]
            refine ⟨List.mem_range.mpr hafc, ?_⟩
            simp only [decide_eq_true_eq]
            exact ⟨hha, hra⟩
          · unfold aliveIndices
            rw [List.mem_filter]
            refine ⟨List.mem_range.mpr hbfc, ?_⟩
            simp only [decide_eq_true_eq]
            exact ⟨hhb, hrb⟩
        · exact P8 dr2 hdr3
      · rw [pairsOf_cons]
        refine List.nodup_cons.mpr ⟨?_, List.nodup_cons.mpr ⟨hbnotrest, P9⟩⟩
        intro hmem
        rcases List.mem_cons.mp hmem with he | hmem2
        · exact q3 he
        · exact hanotrest hmem2
      · intro x hx
        rw [pairsOf_cons] at hx
        rcases List.mem_cons.mp hx with rfl | hx2
        · exact q4
        · rcases List.mem_cons.mp hx2 with rfl | hx3
          · exact q5
          · exact ((seen_set_false_iff seen _ _ x).mp (P10 x hx3)).1
      · exact fun x hx => P11 x (duelElims_super hx)
      · intro x hx
        rw [pairsOf_cons]
        rcases P12 x hx with hx2 | hx2
        · rcases duelElims_sub hx2 with h3x | h3x | h3x
          · exact Or.inl h3x
          · exact Or.inr (by rw [h3x]; exact List.mem_cons_self _ _)
          · refine Or.inr ?_
            rw [h3x]
            exact List.mem_cons_of_mem _ (List.mem_cons_self _ _)
        · exact Or.inr (List.mem_cons_of_mem _ (List.mem_cons_of_mem _ hx2))
      · intro i h0 hne hr0
        by_cases h1hp : (applyDuelDamage c dr.fighter_a_idx dr.fighter_b_idx
            dr.damage_to_a dr.damage_to_b
            (resolve_duel dr.move_a dr.move_b
              (c.meter.getD dr.fighter_a_idx 0)
              (c.meter.getD dr.fighter_b_idx 0)).2.2.1
            (resolve_duel dr.move_a dr.move_b
              (c.meter.getD dr.fighter_a_idx 0)
              (c.meter.getD dr.fighter_b_idx 0)).2.2.2).hp.getD i 0 = 0
        · have hiab : i = dr.fighter_a_idx ∨ i = dr.fighter_b_idx := by
            by_contra hcon
            push_neg at hcon
            exact hne ((f6 i hcon.1 hcon.2).symm.trans h1hp)
          have hrank1 : (applyDuelDamage c dr.fighter_a_idx dr.fighter_b_idx
              dr.damage_to_a dr.damage_to_b
              (resolve_duel dr.move_a dr.move_b
                (c.meter.getD dr.fighter_a_idx 0)
                (c.meter.getD dr.fighter_b_idx 0)).2.2.1
              (resolve_duel dr.move_a dr.move_b
                (c.meter.getD dr.fighter_a_idx 0)
                (c.meter.getD dr.fighter_b_idx 0)).2.2.2).elimination_rank.getD i 0
              = 0 := by
            rw [f1]
            exact hr0
          rcases hiab with rfl | rfl
          · exact P11 _ (duelElims_dead_a h1hp hrank1)
          · exact P11 _ (duelElims_dead_b h1hp hrank1)
        · refine P13 i h0 h1hp ?_
          rw [f1]
          exact hr0

theorem byeCheck_fields {cm : RumbleCombatState} {seen : List Bool} {eb : Nat}
    {bye : Option Nat} {c3 : RumbleCombatState}
    (h : byeCheck cm seen eb bye = .ok c3) :
    c3.hp = cm.hp ∧ c3.elimination_rank = cm.elimination_rank ∧
    c3.remaining_fighters = cm.remaining_fighters ∧
    c3.fighter_count = cm.fighter_count := by
  cases bye with
  | none =>
    unfold byeCheck at h
    dsimp only at h
    split_ifs at h
    injection h with h2
    subst h2
    exact ⟨rfl, rfl, rfl, rfl⟩
  | some y =>
    unfold byeCheck at h
    dsimp only at h
    split_ifs at h
    injection h with h2
    subst h2
    exact ⟨rfl, rfl, rfl, rfl⟩

theorem byeCheck_ok {cm : RumbleCombatState} {seen : List Bool} {eb : Nat}
    {bye : Option Nat} {c3 : RumbleCombatState}
    (h : byeCheck cm seen eb bye = .ok c3) :
    (bye = none → eb ≠ 1) ∧
    (∀ x, bye = some x → eb = 1 ∧ x < cm.fighter_count ∧ 0 < cm.hp.getD x 0 ∧
      cm.elimination_rank.getD x 0 = 0 ∧ seen.getD x true = false) := by
  cases bye with
  | none =>
    unfold byeCheck at h
    dsimp only at h
    split_ifs at h with h1
    exact ⟨fun _ => h1, fun x hx => Option.noConfusion hx⟩
  | some y =>
    unfold byeCheck at h
    dsimp only at h
    split_ifs at h with h1 h2 h3 h4
    refine ⟨fun hh => Option.noConfusion hh, fun x hx => ?_⟩
    injection hx with hyx
    subst hyx
    exact ⟨h1, h2, h3.1, h3.2, h4⟩

/-- The shared tail of both turn resolvers: running the elimination loop on a
state whose ranks, survivor count and fighter count agree with the pre-turn
state `c`, then recording the winner and marking the turn resolved, preserves
the counting invariant and establishes the rank conclusions of the
elimination-rank claim. -/
theorem finalizeTurn_spec (c c3 c4 : RumbleCombatState) (elim : List Nat)
    (hrank : ∀ i, c3.elimination_rank.getD i 0 = c.elimination_rank.getD i 0)
    (hrem : c3.remaining_fighters = c.remaining_fighters)
    (hfc : c3.fighter_count = c.fighter_count)
    (hinv : elimInvariant c)
    (hlen : c.fighter_count ≤ c3.elimination_rank.length)
    (hsub : ∀ i ∈ elim, i < c.fighter_count)
    (hae : applyEliminations c3 (sortBy (elimOrderLe c3) elim) = .ok c4) :
    elimInvariant (finishTurn c4) ∧
    (finishTurn c4).hp = c3.hp ∧
    (∀ i, c.elimination_rank.getD i 0 ≠ 0 →
      (finishTurn c4).elimination_rank.getD i 0 = c.elimination_rank.getD i 0) ∧
    (∀ i ∈ elim, (finishTurn c4).elimination_rank.getD i 0 ≠ 0) ∧
    (∀ i j, i ≠ j → c.elimination_rank.getD i 0 = 0 → c.elimination_rank.getD j 0 = 0 →
      (finishTurn c4).elimination_rank.getD i 0 ≠ 0 →
      (finishTurn c4).elimination_rank.getD j 0 ≠ 0 →
      (finishTurn c4).elimination_rank.getD i 0 ≠
        (finishTurn c4).elimination_rank.getD j 0) := by
  have hinv3 : elimInvariant c3 := elimInvariant_transfer hrank hrem hfc hinv
  have hlen3 : c3.fighter_count ≤ c3.elimination_rank.length := by
    rw [hfc]
    exact hlen
  have hsub3 : ∀ i ∈ sortBy (elimOrderLe c3) elim, i < c3.fighter_count := by
    intro i hi
    rw [hfc]
    exact hsub i ((sortBy_mem _ _ _).mp hi)
  obtain ⟨a1, a2, a3, a4, a5, a6, a7, a8⟩ :=
    applyEliminations_spec _ _ _ hae hlen3 hinv3 hsub3
  obtain ⟨w1, w2, w3, w4⟩ := recordWinner_fields c4
  refine ⟨?_, ?_, ?_, ?_, ?_⟩
  · refine elimInvariant_transfer (fun i => by rw [w2]) ?_ ?_ a1
    · exact w3
    · exact w4
  · rw [w1]
    exact a3
  · intro i hi
    rw [w2, a5 i (by rw [hrank i]; exact hi), hrank i]
  · intro i hi
    rw [w2]
    exact a6 i ((sortBy_mem _ _ _).mpr hi)
  · intro i j hij h0i h0j hni hnj
    rw [w2] at hni hnj ⊢
    exact a8 i j hij (by rw [hrank i]; exact h0i) (by rw [hrank j]; exact h0j) hni hnj

/-- **C7**: for every combat state satisfying
`remaining_fighters + count(elimination_rank > 0) = fighter_count`, every
successful `resolve_turn` and every successful `post_turn_result` preserves
the equality; a nonzero elimination rank is never overwritten, every fighter
whose health reaches zero during the call is assigned a nonzero rank, and the
ranks assigned during the call are pairwise distinct. -/
theorem elimination_rank_invariant (sha : List Nat → List Nat)
    (rev : Pubkey → Option Nat) (r : Rumble) (c : RumbleCombatState)
    (duels : List DuelResult) (bye : Option Nat) (slot : Nat)
    (c2 : RumbleCombatState)
    (hwf : combatWF c) (hinv : elimInvariant c)
    (h : resolve_turn sha rev r c slot = .ok c2 ∨
         post_turn_result r c duels bye slot = .ok c2) :
    elimInvariant c2 ∧
    (∀ i, c.elimination_rank.getD i 0 ≠ 0 →
       c2.elimination_rank.getD i 0 = c.elimination_rank.getD i 0) ∧
    (∀ i, c.hp.getD i 0 ≠ 0 → c.elimination_rank.getD i 0 = 0 →
       c2.hp.getD i 0 = 0 → c2.elimination_rank.getD i 0 ≠ 0) ∧
    (∀ i j, i ≠ j → c.elimination_rank.getD i 0 = 0 → c.elimination_rank.getD j 0 = 0 →
       c2.elimination_rank.getD i 0 ≠ 0 → c2.elimination_rank.getD j 0 ≠ 0 →
       c2.elimination_rank.getD i 0 ≠ c2.elimination_rank.getD j 0) := by
  rcases h with h | h
  · unfold resolve_turn at h
    split_ifs at h with hs1 hs2 hs3 hs4 hs5
    all_goals try exact Except.noConfusion h
    · injection h with h2
      subst h2
      cases hh : (aliveIndices c).head? <;>
        exact ⟨hinv, fun i _ => rfl, fun i hne _ h0 => absurd h0 hne,
          fun i j _ h0i _ hi2 _ => absurd h0i hi2⟩
    · set S := sortBy (pairOrderLe sha r.id c.current_turn r.fighters) (aliveIndices c)
        with hS
      rcases hrd : runDuels sha rev r c.current_turn c S [] [] with e | trip
      · rw [hrd] at h
        exact Except.noConfusion h
      · obtain ⟨c1, paired, elim⟩ := trip
        rw [hrd] at h
        dsimp only at h
        set C3 := byeGrant (grantMeter c1 paired) S with hC3
        rcases hae : applyEliminations C3 (sortBy (elimOrderLe C3) elim) with e | c4
        · rw [hae] at h
          exact Except.noConfusion h
        · rw [hae] at h
          dsimp only at h
          injection h with h2
          subst h2
          obtain ⟨d1, d2, d3, d4, d5, d6, d7, d8⟩ :=
            runDuels_spec sha rev r c.current_turn S.length S c [] []
              (c1, paired, elim) le_rfl hrd
          have d1b : c1.elimination_rank = c.elimination_rank := d1
          have d2b : c1.remaining_fighters = c.remaining_fighters := d2
          have d3b : c1.fighter_count = c.fighter_count := d3
          have d7b : ∀ x ∈ elim, x ∈ ([] : List Nat) ∨ x ∈ S := d7
          have d8b : ∀ i, c1.hp.getD i 0 = 0 → c.hp.getD i 0 ≠ 0 →
              c.elimination_rank.getD i 0 = 0 → i ∈ elim := d8
          obtain ⟨g1, g2, g3, g4, g5, g6⟩ := grantMeter_fields paired c1
          obtain ⟨y1, y2, y3, y4, y5, y6⟩ := byeGrant_fields (grantMeter c1 paired) S
          have hC3rank : ∀ i, C3.elimination_rank.getD i 0 =
              c.elimination_rank.getD i 0 := fun i => by rw [hC3, y2, g2, d1b]
          have hC3rem : C3.remaining_fighters = c.remaining_fighters := by
            rw [hC3, y3, g3, d2b]
          have hC3fc : C3.fighter_count = c.fighter_count := by
            rw [hC3, y4, g4, d3b]
          have hC3hp : C3.hp = c1.hp := by
            rw [hC3, y1, g1]
          have hC3len : c.fighter_count ≤ C3.elimination_rank.length := by
            rw [hC3, y2, g2, d1b, hwf.2.2.2.1]
            exact hwf.1
          have hsubE : ∀ i ∈ elim, i < c.fighter_count := by
            intro i hi
            rcases d7b i hi with h0 | h0
            · exact absurd h0 (List.not_mem_nil i)
            · rw [hS] at h0
              have h0b : i ∈ aliveIndices c := (sortBy_mem _ _ _).mp h0
              unfold aliveIndices at h0b
              exact List.mem_range.mp (List.mem_filter.mp h0b).1
          obtain ⟨F1, F2, F3, F4, F5⟩ :=
            finalizeTurn_spec c C3 c4 elim hC3rank hC3rem hC3fc hinv hC3len hsubE hae
          refine ⟨F1, F3, ?_, F5⟩
          intro i hne hr0 h0
          have h0b : c1.hp.getD i 0 = 0 := by
            rw [← hC3hp, ← F2]
            exact h0
          exact F4 i (d8b i h0b hne hr0)
  · unfold post_turn_result at h
    split_ifs at h with hp1 hp2 hp3 hp4 hp5
    all_goals try exact Except.noConfusion h
    rcases hrp : runPosted r c (List.replicate c.fighter_count false) duels [] []
      with e | q
    · rw [hrp] at h
      exact Except.noConfusion h
    · obtain ⟨c1, seen, paired, elim⟩ := q
      rw [hrp] at h
      dsimp only at h
      rcases hbc : byeCheck (grantMeter c1 paired) seen
          ((aliveIndices c).length % 2) bye with e | c3
      · rw [hbc] at h
        exact Except.noConfusion h
      · rw [hbc] at h
        dsimp only at h
        rcases hae : applyEliminations c3 (sortBy (elimOrderLe c3) elim) with e | c4
        · rw [hae] at h
          exact Except.noConfusion h
        · rw [hae] at h
          dsimp only at h
          injection h with h2
          subst h2
          obtain ⟨P1, P2, P3, P4, P5, P6, P7, P8, P9, P10, P11, P12, P13⟩ :=
            runPosted_spec r c duels c (List.replicate c.fighter_count false) [] []
              (c1, seen, paired, elim) hrp rfl rfl rfl rfl rfl (fun i _ => ⟨rfl, rfl⟩)
          have P1b : c1.elimination_rank = c.elimination_rank := P1
          have P2b : c1.remaining_fighters = c.remaining_fighters := P2
          have P3b : c1.fighter_count = c.fighter_count := P3
          have P12b : ∀ x ∈ elim, x ∈ ([] : List Nat) ∨ x ∈ pairsOf duels := P12
          have P13b : ∀ i, c1.hp.getD i 0 = 0 → c.hp.getD i 0 ≠ 0 →
              c.elimination_rank.getD i 0 = 0 → i ∈ elim := P13
          obtain ⟨g1, g2, g3, g4, g5, g6⟩ := grantMeter_fields paired c1
          obtain ⟨y1, y2, y3, y4⟩ := byeCheck_fields hbc
          have hC3rank : ∀ i, c3.elimination_rank.getD i 0 =
              c.elimination_rank.getD i 0 := fun i => by rw [y2, g2, P1b]
          have hC3rem : c3.remaining_fighters = c.remaining_fighters := by
            rw [y3, g3, P2b]
          have hC3fc : c3.fighter_count = c.fighter_count := by
            rw [y4, g4, P3b]
          have hC3hp : c3.hp = c1.hp := by
            rw [y1, g1]
          have hC3len : c.fighter_count ≤ c3.elimination_rank.length := by
            rw [y2, g2, P1b, hwf.2.2.2.1]
            exact hwf.1
          have hsubE : ∀ i ∈ elim, i < c.fighter_count := by
            intro i hi
            rcases P12b i hi with h0 | h0
            · exact absurd h0 (List.not_mem_nil i)
            · obtain ⟨dr2, hdr2, hcase⟩ := pairsOf_mem h0
              have halive := P8 dr2 hdr2
              rcases hcase with rfl | rfl
              · have hmem := halive.1
                unfold aliveIndices at hmem
                exact List.mem_range.mp (List.mem_filter.mp hmem).1
              · have hmem := halive.2.1
                unfold aliveIndices at hmem
                exact List.mem_range.mp (List.mem_filter.mp hmem).1
          obtain ⟨F1, F2, F3, F4, F5⟩ :=
            finalizeTurn_spec c c3 c4 elim hC3rank hC3rem hC3fc hinv hC3len hsubE hae
          refine ⟨F1, F3, ?_, F5⟩
          intro i hne hr0 h0
          have h0b : c1.hp.getD i 0 = 0 := by
            rw [← hC3hp, ← F2]
            exact h0
          exact F4 i (P13b i h0b hne hr0)

/-- **C8**: a successful `post_turn_result` implies that every submitted duel
named two living (in-range, unranked) fighters with valid move codes and
carried exactly the damage pair recomputed by `resolve_duel` from the
submitted moves and the stored meters, and that the declared pairs plus the
declared bye are a permutation of the living fighters — so a submission that
omits, duplicates or misassigns any living fighter, or misstates any damage,
is rejected. -/
theorem post_turn_result_validates (r : Rumble) (c : RumbleCombatState)
    (duels : List DuelResult) (bye : Option Nat) (slot : Nat)
    (c2 : RumbleCombatState)
    (h : post_turn_result r c duels bye slot = .ok c2) :
    (∀ dr ∈ duels,
       dr.fighter_a_idx ∈ aliveIndices c ∧ dr.fighter_b_idx ∈ aliveIndices c ∧
       is_valid_move_code dr.move_a ∧ is_valid_move_code dr.move_b ∧
       dr.damage_to_a = (resolve_duel dr.move_a dr.move_b
         (c.meter.getD dr.fighter_a_idx 0) (c.meter.getD dr.fighter_b_idx 0)).1 ∧
       dr.damage_to_b = (resolve_duel dr.move_a dr.move_b
         (c.meter.getD dr.fighter_a_idx 0) (c.meter.getD dr.fighter_b_idx 0)).2.1) ∧
    (pairsOf duels ++ byeList bye).Perm (aliveIndices c) := by
  unfold post_turn_result at h
  split_ifs at h with hp1 hp2 hp3 hp4 hp5
  all_goals try exact Except.noConfusion h
  rcases hrp : runPosted r c (List.replicate c.fighter_count false) duels [] []
    with e | q
  · rw [hrp] at h
    exact Except.noConfusion h
  · obtain ⟨c1, seen, paired, elim⟩ := q
    rw [hrp] at h
    dsimp only at h
    rcases hbc : byeCheck (grantMeter c1 paired) seen
        ((aliveIndices c).length % 2) bye with e | c3
    · rw [hbc] at h
      exact Except.noConfusion h
    · obtain ⟨P1, P2, P3, P4, P5, P6, P7, P8, P9, P10, P11, P12, P13⟩ :=
        runPosted_spec r c duels c (List.replicate c.fighter_count false) [] []
          (c1, seen, paired, elim) hrp rfl rfl rfl rfl rfl (fun i _ => ⟨rfl, rfl⟩)
      have P3b : c1.fighter_count = c.fighter_count := P3
      refine ⟨P8, ?_⟩
      have hsubP : ∀ x ∈ pairsOf duels, x ∈ aliveIndices c := by
        intro x hx
        obtain ⟨dr2, hdr2, hcase⟩ := pairsOf_mem hx
        rcases hcase with rfl | rfl
        · exact (P8 dr2 hdr2).1
        · exact (P8 dr2 hdr2).2.1
      obtain ⟨bc1, bc2⟩ := byeCheck_ok hbc
      cases bye with
      | none =>
        have heb : (aliveIndices c).length % 2 ≠ 1 := bc1 rfl
        rw [show byeList none = [] from rfl, List.append_nil]
        have hlenp : (aliveIndices c).length ≤ (pairsOf duels).length := by
          rw [pairsOf_length, hp5]
          omega
        exact (P9.subperm hsubP).perm_of_length_le hlenp
      | some x =>
        obtain ⟨heb, hxfc, hxhp, hxrank, hxseen⟩ := bc2 x rfl
        obtain ⟨g1, g2, g3, g4, g5, g6⟩ := grantMeter_fields paired c1
        have hxfc2 : x < c.fighter_count := by
          rw [g4, P3b] at hxfc
          exact hxfc
        have hxpair := (P7 x).mp hxseen
        have hxnot : x ∉ pairsOf duels := hxpair.2
        have hxhp2 : 0 < c.hp.getD x 0 := by
          rw [g1] at hxhp
          rw [(P6 x hxseen).1] at hxhp
          exact hxhp
        have hxrank2 : c.elimination_rank.getD x 0 = 0 := by
          rw [g2] at hxrank
          have P1b : c1.elimination_rank = c.elimination_rank := P1
          rw [P1b] at hxrank
          exact hxrank
        have hxalive : x ∈ aliveIndices c := by
          unfold aliveIndices
          rw [List.mem_filter]
          refine ⟨List.mem_range.mpr hxfc2, ?_⟩
          simp only [decide_eq_true_eq]
          exact ⟨hxhp2, hxrank2⟩
        rw [show byeList (some x) = [x] from rfl]
        have hnodup : (pairsOf duels ++ [x]).Nodup := by
          refine List.Nodup.append P9 (List.nodup_singleton x) ?_
          intro a ha hax
          rw [List.mem_singleton.mp hax] at ha
          exact hxnot ha
        have hsub2 : ∀ y ∈ pairsOf duels ++ [x], y ∈ aliveIndices c := by
          intro y hy
          rcases List.mem_append.mp hy with hy2 | hy2
          · exact hsubP y hy2
          · rw [List.mem_singleton.mp hy2]
            exact hxalive
        have hlenp : (aliveIndices c).length ≤ (pairsOf duels ++ [x]).length := by
          rw [List.length_append, pairsOf_length, hp5]
          simp only [List.length_singleton]
          omega
        exact (hnodup.subperm hsub2).perm_of_length_le hlenp

/-- Witness for C7: resolving the 2-fighter turn of `wCombatDuel` kills both
fighters (mutual 26-damage strikes at 10 hp each); the invariant
`remaining + ranked = fighter_count` holds before (2 + 0 = 2) and after
(0 + 2 = 2). -/
theorem elimination_rank_invariant_witness :
    (combatWF wCombatDuel ∧ elimInvariant wCombatDuel ∧
     resolve_turn sha0 rev0 wRumbleDuel wCombatDuel 25 = .ok wCombatDuelAfter) ∧
    elimInvariant wCombatDuelAfter :=
  ⟨⟨by decide, by decide, by rfl⟩,
   (elimination_rank_invariant sha0 rev0 wRumbleDuel wCombatDuel [] none 25
     wCombatDuelAfter (by decide) (by decide) (Or.inl (by rfl))).1⟩

/-- Witness for C8: the operator submission `wDuels` (slots 0 and 1, mutual
26-damage strikes) is accepted on `wCombatDuel`, and its declared pair plus
the (empty) bye is a permutation of the living fighters `[0, 1]`. -/
theorem post_turn_result_validates_witness :
    post_turn_result wRumbleDuel wCombatDuel wDuels none 25 = .ok wCombatDuelAfter ∧
    (pairsOf wDuels ++ byeList none).Perm (aliveIndices wCombatDuel) :=
  ⟨rfl,
   (post_turn_result_validates wRumbleDuel wCombatDuel wDuels none 25
     wCombatDuelAfter rfl).2⟩

end RumbleEngine
